import Mathlib

/-!
Verification development for the `pi-interactive-shell` extension.

The definitions below are a shallow embedding of the TypeScript sources:

* key encoding (`NAMED_KEYS`, `CTRL_KEYS`, `encodeKeyToken`, `translateInput`,
  `encodePaste`) from the key-encoding module (src/unnamed/part_001);
* the hands-free budget logic (`emitCore`) and handoff preview
  (`maybeBuildHandoffPreview`) of `InteractiveShellOverlay`
  (src/overlay-component.ts);
* the controller state machine of `InteractiveShellOverlay` as a step
  function over an explicit state record, with timers modelled as armed
  flags and external actions collected as a list of effects;
* the session registry's `unregisterActive` / `releaseSessionId`
  (src/session-manager.ts);
* the driver facade's query path of `execute` (src/index.ts), with the
  `Promise.race` against session completion modelled by an explicit race
  outcome.

JavaScript strings are modelled as Lean `String`s (sequences of characters);
JavaScript numbers appearing in clamping and countdown logic are modelled as
`Int`, and non-negative counters/timestamps as `Nat`.
-/

namespace PiShell

/-! ### Key encoding (src/unnamed/part_001)

`NAMED_KEYS` is the literal lookup table from the source.  A JS object
lookup that misses yields `undefined`, modelled as `none`. -/

def NAMED_KEYS : String → Option String
  | "up" => some "\x1b[A"
  | "down" => some "\x1b[B"
  | "left" => some "\x1b[D"
  | "right" => some "\x1b[C"
  | "enter" => some "\r"
  | "return" => some "\r"
  | "escape" => some "\x1b"
  | "esc" => some "\x1b"
  | "tab" => some "\t"
  | "space" => some " "
  | "backspace" => some "\x7f"
  | "bspace" => some "\x7f"
  | "delete" => some "\x1b[3~"
  | "del" => some "\x1b[3~"
  | "dc" => some "\x1b[3~"
  | "insert" => some "\x1b[2~"
  | "ic" => some "\x1b[2~"
  | "home" => some "\x1b[H"
  | "end" => some "\x1b[F"
  | "pageup" => some "\x1b[5~"
  | "pgup" => some "\x1b[5~"
  | "ppage" => some "\x1b[5~"
  | "pagedown" => some "\x1b[6~"
  | "pgdn" => some "\x1b[6~"
  | "npage" => some "\x1b[6~"
  | "btab" => some "\x1b[Z"
  | "f1" => some "\x1bOP"
  | "f2" => some "\x1bOQ"
  | "f3" => some "\x1bOR"
  | "f4" => some "\x1bOS"
  | "f5" => some "\x1b[15~"
  | "f6" => some "\x1b[17~"
  | "f7" => some "\x1b[18~"
  | "f8" => some "\x1b[19~"
  | "f9" => some "\x1b[20~"
  | "f10" => some "\x1b[21~"
  | "f11" => some "\x1b[23~"
  | "f12" => some "\x1b[24~"
  | "kp0" => some "\x1bOp"
  | "kp1" => some "\x1bOq"
  | "kp2" => some "\x1bOr"
  | "kp3" => some "\x1bOs"
  | "kp4" => some "\x1bOt"
  | "kp5" => some "\x1bOu"
  | "kp6" => some "\x1bOv"
  | "kp7" => some "\x1bOw"
  | "kp8" => some "\x1bOx"
  | "kp9" => some "\x1bOy"
  | "kp/" => some "\x1bOo"
  | "kp*" => some "\x1bOj"
  | "kp-" => some "\x1bOm"
  | "kp+" => some "\x1bOk"
  | "kp." => some "\x1bOn"
  | "kpenter" => some "\x1bOM"
  | _ => none

/-- `CTRL_KEYS`: built in the source by a loop mapping `ctrl+a`..`ctrl+z` to
the control codes `0x01`..`0x1a`, plus six special entries. -/
def CTRL_KEYS (k : String) : Option String :=
  match k.data with
  | ['c', 't', 'r', 'l', '+', c] =>
      if 'a' ≤ c ∧ c ≤ 'z' then some (String.mk [Char.ofNat (c.toNat - 96)])
      else
        match c with
        | '[' => some "\x1b"
        | '\\' => some "\x1c"
        | ']' => some "\x1d"
        | '^' => some "\x1e"
        | '_' => some "\x1f"
        | '?' => some "\x7f"
        | _ => none
  | _ => none

/-- `altKey` from the source: alt+key sends ESC followed by the key. -/
def altKey (char : String) : String := "\x1b" ++ char

/-- `MODIFIABLE_KEYS` from the source. -/
def MODIFIABLE_KEYS : List String :=
  ["up", "down", "left", "right", "home", "end",
   "pageup", "pgup", "ppage", "pagedown", "pgdn", "npage",
   "insert", "ic", "delete", "del", "dc"]

/-- `xtermModifier`: `1 + (shift?1:0) + (alt?2:0) + (ctrl?4:0)`. -/
def xtermModifier (shift alt ctrl : Bool) : Nat :=
  1 + (if shift then 1 else 0) + (if alt then 2 else 0) + (if ctrl then 4 else 0)

/-- `applyXtermModifier`: the source tests the sequence against the three
regexes `^ESC[([A-D])$`, `^ESC[(\d+)~$` and `^ESC[([HF])$` in that order.
A three-character sequence can never match the middle regex, so the
pattern match below on the explicit character list is equivalent. -/
def applyXtermModifier (sequence : String) (modifier : Nat) : Option String :=
  match sequence.data with
  | ['\x1b', '[', c] =>
      if c = 'A' ∨ c = 'B' ∨ c = 'C' ∨ c = 'D' then
        some ("\x1b[1;" ++ toString modifier ++ String.mk [c])
      else if c = 'H' ∨ c = 'F' then
        some ("\x1b[1;" ++ toString modifier ++ String.mk [c])
      else none
  | '\x1b' :: '[' :: rest =>
      let pre := rest.dropLast
      if rest.getLast? = some '~' ∧ pre ≠ [] ∧ pre.all Char.isDigit then
        some ("\x1b[" ++ String.mk pre ++ ";" ++ toString modifier ++ "~")
      else none
  | _ => none

/-- Bracketed paste mode sequences. -/
def BRACKETED_PASTE_START : String := "\x1b[200~"

def BRACKETED_PASTE_END : String := "\x1b[201~"

/-- `encodePaste` from the source (the source's `bracketed` parameter
defaults to `true`; every call site uses the default). -/
def encodePaste (text : String) (bracketed : Bool) : String :=
  if !bracketed then text
  else BRACKETED_PASTE_START ++ text ++ BRACKETED_PASTE_END

/-- `l` starts with `p` (JS `String.prototype.startsWith` on char lists). -/
def lTake (l p : List Char) : Bool := l.take p.length = p

/-- The modifier-stripping `while (rest.length > 2)` loop of
`encodeKeyToken`, as a recursion on the character list.  Each iteration
removes a fixed-length modifier marker from the front, or exits. -/
def parseMods (rest : List Char) (ctrl alt shift : Bool) :
    Bool × Bool × Bool × List Char :=
  if h : 2 < rest.length then
    if lTake rest "ctrl+".data || lTake rest "ctrl-".data then
      parseMods (rest.drop 5) true alt shift
    else if lTake rest "alt+".data || lTake rest "alt-".data then
      parseMods (rest.drop 4) ctrl true shift
    else if lTake rest "shift+".data || lTake rest "shift-".data then
      parseMods (rest.drop 6) ctrl alt true
    else if lTake rest "c-".data then
      parseMods (rest.drop 2) true alt shift
    else if lTake rest "m-".data then
      parseMods (rest.drop 2) ctrl true shift
    else if lTake rest "s-".data then
      parseMods (rest.drop 2) ctrl alt true
    else (ctrl, alt, shift, rest)
  else (ctrl, alt, shift, rest)
termination_by rest.length
decreasing_by
  all_goals simp [List.length_drop]
  all_goals omega

/-- The tail of `encodeKeyToken` after the xterm-modifier block falls
through: single-character handling, named key with alt, named key plain,
or the literal token. -/
def encodeAfterMod (token rest : String) (baseSeq : Option String)
    (ctrl alt shift : Bool) : String :=
  if rest.length = 1 then
    let char0 := rest
    let isLowerAlpha : Bool :=
      match rest.data with
      | [c] => 'a' ≤ c && c ≤ 'z'
      | _ => false
    let char1 := if shift && isLowerAlpha then char0.toUpper else char0
    let char2 :=
      if ctrl then
        match CTRL_KEYS ("ctrl+" ++ char1.toLower) with
        | some c => c
        | none => char1
      else char1
    if alt then altKey char2 else char2
  else
    match baseSeq with
    | some b =>
        if alt then "\x1b" ++ b
        else b
    | none => token

/-- `encodeKeyToken` from the source. -/
def encodeKeyToken (token : String) : String :=
  let normalized := token.trim.toLower
  if normalized = "" then ""
  else
    match NAMED_KEYS normalized with
    | some s => s
    | none =>
      match CTRL_KEYS normalized with
      | some s => s
      | none =>
        let p := parseMods normalized.data false false false
        let ctrl := p.1
        let alt := p.2.1
        let shift := p.2.2.1
        let rest : String := String.mk p.2.2.2
        if shift ∧ rest = "tab" then "\x1b[Z"
        else
          let baseSeq := NAMED_KEYS rest
          let modAttempt : Option String :=
            match baseSeq with
            | some b =>
                if rest ∈ MODIFIABLE_KEYS ∧ (ctrl ∨ alt ∨ shift) then
                  let m := xtermModifier shift alt ctrl
                  if 1 < m then applyXtermModifier b m else none
                else none
            | none => none
          match modAttempt with
          | some s => s
          | none => encodeAfterMod token rest baseSeq ctrl alt shift

/-! Structured input and `translateInput`. -/

/-- The structured input record accepted by `translateInput`. -/
structure StructuredInput where
  text : Option String := none
  keys : Option (List String) := none
  paste : Option String := none
  hex : Option (List String) := none
deriving DecidableEq

/-- `translateInput`'s argument: a raw string or a structured record. -/
inductive InputArg where
  | raw (s : String)
  | struct (i : StructuredInput)
deriving DecidableEq

def isHexDigitChar (c : Char) : Bool := c.isDigit || ('a' ≤ c && c ≤ 'f')

def hexDigitVal (c : Char) : Nat := if c.isDigit then c.toNat - 48 else c.toNat - 87

/-- One iteration of the `hex` loop in `translateInput`: trim, lowercase,
strip a leading `0x`, accept exactly one or two hex digits, and decode.
Invalid tokens contribute nothing (the source skips them). -/
def decodeHexByte (raw : String) : Option Char :=
  let trimmed := raw.trim.toLower
  let normalized := if trimmed.startsWith "0x" then trimmed.drop 2 else trimmed
  match normalized.data with
  | [c] => if isHexDigitChar c then some (Char.ofNat (hexDigitVal c)) else none
  | [c1, c2] =>
      if isHexDigitChar c1 && isHexDigitChar c2 then
        some (Char.ofNat (16 * hexDigitVal c1 + hexDigitVal c2))
      else none
  | _ => none

/-- The hex part of `translateInput` (`if (input.hex?.length)` guard:
an absent or empty array contributes nothing). -/
def hexPart (hex : Option (List String)) : String :=
  match hex with
  | none => ""
  | some hs => if hs.isEmpty then "" else String.mk (hs.filterMap decodeHexByte)

/-- The text part (`if (input.text)`: an absent or empty string is falsy
and contributes nothing). -/
def textPart (text : Option String) : String :=
  match text with
  | none => ""
  | some t => if t = "" then "" else t

/-- The keys part (`if (input.keys)`: a present array, even empty, is
truthy and each token is encoded in order). -/
def keysPart (keys : Option (List String)) : String :=
  match keys with
  | none => ""
  | some ks => String.join (ks.map encodeKeyToken)

/-- The paste part (`if (input.paste)`: an absent or empty string is
falsy and contributes nothing; otherwise bracketed-paste wrapping). -/
def pastePart (paste : Option String) : String :=
  match paste with
  | none => ""
  | some p => if p = "" then "" else encodePaste p true

/-- `translateInput` from the source. -/
def translateInput : InputArg → String
  | .raw s => s
  | .struct i => hexPart i.hex ++ textPart i.text ++ keysPart i.keys ++ pastePart i.paste

/-- Claim C7's reading of the spec sentence, as stated: the paste text is
always wrapped in bracketed-paste markers whenever the `paste` field is
present (no nonemptiness proviso).  Used only to exhibit where it departs
from the implementation. -/
def translateInputClaimC7 : InputArg → String
  | .raw s => s
  | .struct i =>
      hexPart i.hex ++ textPart i.text ++ keysPart i.keys ++
        (match i.paste with
         | none => ""
         | some p => encodePaste p true)

/-! ### String helpers shared by the overlay component

`jsSliceNeg s n` models the JS expression `s.slice(-n)` for a natural `n`:
for `n = 0` JS evaluates `s.slice(0)`, the whole string; otherwise the last
`n` characters (all of `s` when `n ≥ s.length`).

`jsSplitNl` models `s.split("\n")`: the list of (possibly empty) segments
between newline characters, always nonempty. -/

def jsSliceNeg (s : String) (n : Nat) : String :=
  if n = 0 then s else String.mk (s.data.drop (s.length - n))

def splitNlAux : List Char → List Char → List (List Char)
  | [], cur => [cur.reverse]
  | c :: rest, cur =>
      if c = '\n' then cur.reverse :: splitNlAux rest []
      else splitNlAux rest (c :: cur)

def jsSplitNl (s : String) : List String :=
  (splitNlAux s.data []).map String.mk

/-! ### Hands-free update budget (`emitHandsFreeUpdate`, src/overlay-component.ts)

`emitCore` is the body of `emitHandsFreeUpdate` between the callback guard
and the callback invocation: it consumes the incremental raw-stream content
`raw` (`getRawStream({ sinceLast: true, stripAnsi: true })`; the source only
performs that read when the budget is not yet exhausted) and produces the
updated counters and the `tail`/`tailTruncated` fields of the emitted
update.  `content` records the final value of the source's `newOutput`
variable; `tail` is its `split("\n")` when nonempty. -/

structure EmitResult where
  totalCharsSent : Nat
  budgetExhausted : Bool
  content : String
  tail : List String
  truncated : Bool
deriving DecidableEq

/-- The final `if (newOutput.length > 0)` step of `emitHandsFreeUpdate`:
account the final content into the total and split it into the tail. -/
def mkEmitResult (totalCharsSent0 : Nat) (be tr : Bool) (o2 : String) : EmitResult :=
  if 0 < o2.length then
    { totalCharsSent := totalCharsSent0 + o2.length, budgetExhausted := be,
      content := o2, tail := jsSplitNl o2, truncated := tr }
  else
    { totalCharsSent := totalCharsSent0, budgetExhausted := be,
      content := o2, tail := [], truncated := tr }

def emitCore (maxChars maxTotalChars : Nat) (totalCharsSent0 : Nat)
    (budgetExhausted0 : Bool) (raw : String) : EmitResult :=
  if budgetExhausted0 then
    { totalCharsSent := totalCharsSent0, budgetExhausted := budgetExhausted0,
      content := "", tail := [], truncated := false }
  else
    let o1 := if maxChars < raw.length then jsSliceNeg raw maxChars else raw
    let cut : Bool := decide (maxChars < raw.length)
    let remaining : Int := (maxTotalChars : Int) - (totalCharsSent0 : Int)
    if maxTotalChars < totalCharsSent0 + o1.length then
      if 0 < remaining then
        mkEmitResult totalCharsSent0 true true (jsSliceNeg o1 remaining.toNat)
      else mkEmitResult totalCharsSent0 true cut ""
    else mkEmitResult totalCharsSent0 budgetExhausted0 cut o1

/-- A sequence of `emitHandsFreeUpdate` calls of one controller: each call
reads the raw bytes appended since the previous call (its chunk) and
threads the `(totalCharsSent, budgetExhausted)` pair.  Returns the final
pair and the per-call results in order. -/
def emitFold (maxChars maxTotalChars : Nat) :
    Nat × Bool → List String → (Nat × Bool) × List EmitResult
  | st, [] => (st, [])
  | (t, b), chunk :: rest =>
      let r := emitCore maxChars maxTotalChars t b chunk
      let (st1, rs) := emitFold maxChars maxTotalChars (r.totalCharsSent, r.budgetExhausted) rest
      (st1, r :: rs)

/-- The character count an emission contributes: the length of the joined
`tail` (its elements with the newlines they were split at), which equals
the length of the emitted content. -/
def joinedLen (tail : List String) : Nat :=
  match tail with
  | [] => 0
  | _ => (tail.map String.length).sum + (tail.length - 1)

/-! ### Handoff preview (`maybeBuildHandoffPreview`, src/overlay-component.ts)

The backwards loop collecting the last lines of the stripped raw log,
char-budget bounded.  `handoffTailLoop` walks the reversed line list;
`tail.unshift(line)` becomes consing onto the accumulator. -/

def handoffTailLoop (lines maxChars : Nat) :
    List String → List String → Nat → List String
  | [], tail, _ => tail
  | l :: restLines, tail, charCount =>
      if lines ≤ tail.length then tail
      else if maxChars < charCount + l.length ∧ 0 < tail.length then tail
      else handoffTailLoop lines maxChars restLines (l :: tail) (charCount + l.length + 1)

/-- `maybeBuildHandoffPreview` with the configuration already merged
(`options.* ?? config.*`) and the stripped raw stream content
(`getRawStream({ stripAnsi: true })`) supplied as `rawOutput`.  Returns
the `lines` field of the preview, or `none` when disabled. -/
def maybeBuildHandoffPreview (enabled : Bool) (lines maxChars : Int)
    (rawOutput : String) : Option (List String) :=
  if !enabled then none
  else if lines ≤ 0 ∨ maxChars ≤ 0 then none
  else
    let outputLines := jsSplitNl rawOutput
    some (handoffTailLoop lines.toNat maxChars.toNat outputLines.reverse [] 0)

/-! ### The controller (`InteractiveShellOverlay`, src/overlay-component.ts)

The overlay's instance fields become the record `Ctrl`; its five timers
(`countdownInterval`, `timeoutTimer`, `handsFreeInterval`,
`handsFreeInitialTimeout`, `quietTimer`) become armed flags, a timer-fire
event being a no-op when the flag is cleared (a cleared JS timer cannot
fire).  External actions (PTY writes, session-manager calls, update
emissions, the `done` callback) are collected as `Effect`s.  The
append-only raw byte log lives in `rawAll` (already strip-ANSI decoded)
with `rawCursor` as the driver-stream cursor of
`getRawStream({ sinceLast: true })`.  `ptyDisposed` / `handlersDetached`
record `session.dispose()` and `session.setEventHandlers({})`; a disposed
or detached session delivers no further `onData`/`onExit` callbacks
(PtySession lifecycle). -/

inductive OverlayState where
  | running | exited | detachDialog | handsFree
deriving DecidableEq

inductive DialogChoice where
  | kill | background | cancel
deriving DecidableEq

inductive UpdateMode where
  | onQuiet | interval
deriving DecidableEq

inductive SessionMode where
  | interactive | handsFree
deriving DecidableEq

structure HandsFreeUpdate where
  status : String
  sessionId : String
  runtime : Nat
  tail : List String
  tailTruncated : Bool
  userTookOver : Option Bool := none
  totalCharsSent : Option Nat := none
  budgetExhausted : Option Bool := none
deriving DecidableEq

structure InteractiveShellResult where
  exitCode : Option Int
  signal : Option Int := none
  backgrounded : Bool
  backgroundId : Option String := none
  cancelled : Bool
  timedOut : Option Bool := none
  sessionId : Option String := none
  userTookOver : Option Bool := none
  handoffPreview : Option (List String) := none
deriving DecidableEq

inductive Effect where
  | registerActive (id : String)
  | unregisterActive (id : String) (releaseId : Bool)
  | emitUpdate (u : HandsFreeUpdate)
  | callDone (r : InteractiveShellResult)
  | writePty (data : String)
  | scrollUpBy (n : Nat)
  | scrollDownBy (n : Nat)
  | killPty
  | disposePty
  | addBackground (id : String) (command : String)
  | writeSnapshot (whenTag : String)
  | requestRender
deriving DecidableEq

/-- The merged per-session configuration: each field is the
`options.* ?? config.*` value the constructor computes, plus the
observables the controller reads from its collaborators (`rows`,
the id `sessionManager.add` would generate, the construction time). -/
structure CtrlConfig where
  mode : SessionMode
  sessionId0 : String
  command : String
  updateMode : UpdateMode
  updateInterval0 : Int
  quietThreshold0 : Int
  updateMaxChars : Nat
  maxTotalChars : Nat
  hasUpdateCallback : Bool
  timeoutMs : Option Int
  exitAutoCloseDelay : Int
  doubleEscapeThreshold : Nat
  previewEnabled : Bool
  previewLines : Int
  previewMaxChars : Int
  snapshotEnabled : Bool
  snapshotLines : Int
  snapshotMaxChars : Int
  rows : Nat
  bgId : String
  startTime : Nat
deriving DecidableEq

structure Ctrl where
  state : OverlayState
  dialogSelection : DialogChoice
  exitCountdown : Int
  lastEscapeTime : Nat
  countdownArmed : Bool
  userTookOver : Bool
  intervalArmed : Bool
  initialArmed : Bool
  startTime : Nat
  sessionId : Option String
  sessionUnregistered : Bool
  timeoutArmed : Bool
  timedOut : Bool
  finished : Bool
  totalCharsSent : Nat
  budgetExhausted : Bool
  currentUpdateInterval : Int
  currentQuietThreshold : Int
  lastDataTime : Nat
  quietArmed : Bool
  hasUnsentData : Bool
  rawAll : String
  rawCursor : Nat
  exitCode : Option Int
  signal : Option Int
  ptyDisposed : Bool
  handlersDetached : Bool
  intervalEpoch : Nat
deriving DecidableEq

def stopCountdown (s : Ctrl) : Ctrl := { s with countdownArmed := false }

def stopTimeout (s : Ctrl) : Ctrl := { s with timeoutArmed := false }

def stopQuietTimer (s : Ctrl) : Ctrl := { s with quietArmed := false }

def stopHandsFreeUpdates (s : Ctrl) : Ctrl :=
  { s with initialArmed := false, intervalArmed := false, quietArmed := false }

/-- `startExitCountdown`: stops any previous countdown and arms a fresh one. -/
def startExitCountdown (s : Ctrl) : Ctrl := { s with countdownArmed := true }

/-- `unregisterActiveSession`: calls `sessionManager.unregisterActive(id)`
once; the source passes no second argument, so `releaseId` takes its
TypeScript default `false`. -/
def unregisterActiveSession (s : Ctrl) : Ctrl × List Effect :=
  match s.sessionId with
  | some id =>
      if !s.sessionUnregistered then
        ({ s with sessionUnregistered := true }, [.unregisterActive id false])
      else (s, [])
  | none => (s, [])

/-- `emitHandsFreeUpdate`: guard on callback and sessionId, then the
budget logic of `emitCore` over the raw bytes since the last emission
(the raw-stream read, and the cursor advance, happen only when the budget
is not yet exhausted). -/
def emitHandsFreeUpdate (cfg : CtrlConfig) (now : Nat) (s : Ctrl) : Ctrl × List Effect :=
  match s.sessionId, cfg.hasUpdateCallback with
  | some sid, true =>
      let raw := if s.budgetExhausted then "" else s.rawAll.drop s.rawCursor
      let r := emitCore cfg.updateMaxChars cfg.maxTotalChars s.totalCharsSent s.budgetExhausted raw
      ({ s with totalCharsSent := r.totalCharsSent, budgetExhausted := r.budgetExhausted,
                rawCursor := if s.budgetExhausted then s.rawCursor else s.rawAll.length },
       [.emitUpdate { status := "running", sessionId := sid, runtime := now - s.startTime,
                      tail := r.tail, tailTruncated := r.truncated,
                      totalCharsSent := some r.totalCharsSent,
                      budgetExhausted := some r.budgetExhausted }])
  | _, _ => (s, [])

/-- The flush pattern `if (this.hasUnsentData || this.updateMode === "interval")
{ this.emitHandsFreeUpdate(); this.hasUnsentData = false; }` shared by
`onExit`, `triggerUserTakeover` and `finishWithTimeout`. -/
def flushPendingUpdate (cfg : CtrlConfig) (now : Nat) (s : Ctrl) : Ctrl × List Effect :=
  if s.hasUnsentData || cfg.updateMode = .interval then
    let (s1, es) := emitHandsFreeUpdate cfg now s
    ({ s1 with hasUnsentData := false }, es)
  else (s, [])

/-- The `status: "exited"` notification payload. -/
def exitedUpdate (now : Nat) (s : Ctrl) (sid : String) : HandsFreeUpdate :=
  { status := "exited", sessionId := sid, runtime := now - s.startTime,
    tail := [], tailTruncated := false,
    totalCharsSent := some s.totalCharsSent, budgetExhausted := some s.budgetExhausted }

def maybeBuildHandoffPreviewCtrl (cfg : CtrlConfig) (s : Ctrl) : Option (List String) :=
  maybeBuildHandoffPreview cfg.previewEnabled cfg.previewLines cfg.previewMaxChars s.rawAll

/-- `maybeWriteHandoffSnapshot` reduced to whether the snapshot file is
written (its content is a filesystem artifact outside the state machine). -/
def snapshotEffects (cfg : CtrlConfig) (tag : String) : List Effect :=
  if cfg.snapshotEnabled ∧ 0 < cfg.snapshotLines ∧ 0 < cfg.snapshotMaxChars then
    [.writeSnapshot tag]
  else []

def finishWithExit (cfg : CtrlConfig) (s : Ctrl) : Ctrl × List Effect :=
  if s.finished then (s, [])
  else
    let s1 := stopHandsFreeUpdates (stopTimeout (stopCountdown { s with finished := true }))
    let (s2, e1) := unregisterActiveSession s1
    let preview := maybeBuildHandoffPreviewCtrl cfg s2
    let snapEs := snapshotEffects cfg "exit"
    let s3 := { s2 with ptyDisposed := true }
    (s3, e1 ++ snapEs ++ [.disposePty,
      .callDone { exitCode := s3.exitCode, signal := s3.signal, backgrounded := false,
                  cancelled := false, sessionId := s3.sessionId,
                  userTookOver := some s3.userTookOver, handoffPreview := preview }])

def finishWithBackground (cfg : CtrlConfig) (s : Ctrl) : Ctrl × List Effect :=
  if s.finished then (s, [])
  else
    let s1 := stopHandsFreeUpdates (stopTimeout (stopCountdown { s with finished := true }))
    let (s2, e1) := unregisterActiveSession s1
    let preview := maybeBuildHandoffPreviewCtrl cfg s2
    let snapEs := snapshotEffects cfg "detach"
    let s3 := { s2 with handlersDetached := true }
    (s3, e1 ++ snapEs ++ [.addBackground cfg.bgId cfg.command,
      .callDone { exitCode := none, backgrounded := true, backgroundId := some cfg.bgId,
                  cancelled := false, sessionId := s3.sessionId,
                  userTookOver := some s3.userTookOver, handoffPreview := preview }])

def finishWithKill (cfg : CtrlConfig) (s : Ctrl) : Ctrl × List Effect :=
  if s.finished then (s, [])
  else
    let s1 := stopHandsFreeUpdates (stopTimeout (stopCountdown { s with finished := true }))
    let (s2, e1) := unregisterActiveSession s1
    let preview := maybeBuildHandoffPreviewCtrl cfg s2
    let snapEs := snapshotEffects cfg "kill"
    let s3 := { s2 with ptyDisposed := true }
    (s3, e1 ++ snapEs ++ [.killPty, .disposePty,
      .callDone { exitCode := none, backgrounded := false, cancelled := true,
                  sessionId := s3.sessionId, userTookOver := some s3.userTookOver,
                  handoffPreview := preview }])

def finishWithTimeout (cfg : CtrlConfig) (now : Nat) (s : Ctrl) : Ctrl × List Effect :=
  if s.finished then (s, [])
  else
    let s1 := stopTimeout (stopCountdown { s with finished := true })
    let (s2, es1) :=
      match s1.state, cfg.hasUpdateCallback, s1.sessionId with
      | .handsFree, true, some _ =>
          let (sa, ea) := flushPendingUpdate cfg now s1
          let em :=
            match sa.sessionId with
            | some sid => [Effect.emitUpdate (exitedUpdate now sa sid)]
            | none => []
          (sa, ea ++ em)
      | _, _, _ => (s1, [])
    let s3 := stopHandsFreeUpdates s2
    let (s4, es2) := unregisterActiveSession s3
    let s5 := { s4 with timedOut := true }
    let preview := maybeBuildHandoffPreviewCtrl cfg s5
    let snapEs := snapshotEffects cfg "timeout"
    let s6 := { s5 with ptyDisposed := true }
    (s6, es1 ++ es2 ++ snapEs ++ [.killPty, .disposePty,
      .callDone { exitCode := none, backgrounded := false, cancelled := false,
                  timedOut := some true, sessionId := s6.sessionId,
                  userTookOver := some s6.userTookOver, handoffPreview := preview }])

/-- `triggerUserTakeover`: flush, stop updates, unregister, leave
hands-free, notify the agent (the notification uses optional chaining, so
it is skipped when no callback is registered). -/
def triggerUserTakeover (cfg : CtrlConfig) (now : Nat) (s : Ctrl) : Ctrl × List Effect :=
  if s.state ≠ .handsFree ∨ s.sessionId = none then (s, [])
  else
    let (s1, e1) := flushPendingUpdate cfg now s
    let s2 := stopHandsFreeUpdates s1
    let (s3, e2) := unregisterActiveSession s2
    let s4 := { s3 with state := .running, userTookOver := true }
    let e3 :=
      match cfg.hasUpdateCallback, s4.sessionId with
      | true, some sid =>
          [Effect.emitUpdate { status := "user-takeover", sessionId := sid,
                               runtime := now - s4.startTime, tail := [], tailTruncated := false,
                               userTookOver := some true, totalCharsSent := some s4.totalCharsSent,
                               budgetExhausted := some s4.budgetExhausted }]
      | _, _ => []
    (s4, e1 ++ e2 ++ e3 ++ [.requestRender])

def handleDoubleEscape (cfg : CtrlConfig) (now : Nat) (s : Ctrl) : Ctrl × Bool :=
  if now - s.lastEscapeTime < cfg.doubleEscapeThreshold then
    ({ s with lastEscapeTime := 0 }, true)
  else ({ s with lastEscapeTime := now }, false)

/-- User keystrokes, abstracted by which of the `matchesKey` patterns of
`handleInput` / `handleDialogInput` the data matches (the patterns are
mutually exclusive on real key sequences); `other` carries arbitrary data
matching none of them. -/
inductive InputEvent where
  | escape | shiftUp | shiftDown | up | down | enter
  | other (data : String)
deriving DecidableEq

def inputData : InputEvent → String
  | .escape => "\x1b"
  | .shiftUp => "\x1b[1;2A"
  | .shiftDown => "\x1b[1;2B"
  | .up => "\x1b[A"
  | .down => "\x1b[B"
  | .enter => "\r"
  | .other d => d

def handleDialogInput (cfg : CtrlConfig) (s : Ctrl) (ev : InputEvent) : Ctrl × List Effect :=
  match ev with
  | .escape => ({ s with state := .running }, [.requestRender])
  | .up | .down =>
      let choices := [DialogChoice.kill, DialogChoice.background, DialogChoice.cancel]
      let currentIdx : Int := (choices.indexOf s.dialogSelection : Nat)
      let direction : Int := if ev = .up then -1 else 1
      let newIdx := ((currentIdx + direction + 3) % 3).toNat
      ({ s with dialogSelection := choices.getD newIdx DialogChoice.kill }, [.requestRender])
  | .enter =>
      match s.dialogSelection with
      | .kill => finishWithKill cfg s
      | .background => finishWithBackground cfg s
      | .cancel => ({ s with state := .running }, [.requestRender])
  | _ => (s, [])

def handleInput (cfg : CtrlConfig) (now : Nat) (s : Ctrl) (ev : InputEvent) :
    Ctrl × List Effect :=
  if s.state = .detachDialog then handleDialogInput cfg s ev
  else if s.state = .exited then
    if 0 < (inputData ev).length then finishWithExit cfg s else (s, [])
  else
    match ev with
    | .escape =>
        let (s1, dbl) := handleDoubleEscape cfg now s
        if dbl then
          let (s2, e1) :=
            if s1.state = .handsFree then triggerUserTakeover cfg now s1 else (s1, [])
          ({ s2 with state := .detachDialog, dialogSelection := .background },
           e1 ++ [.requestRender])
        else (s1, [.writePty "\x1b"])
    | .shiftUp => (s, [.scrollUpBy (max 1 (cfg.rows - 2)), .requestRender])
    | .shiftDown => (s, [.scrollDownBy (max 1 (cfg.rows - 2)), .requestRender])
    | _ =>
        let (s1, e1) :=
          if s.state = .handsFree then triggerUserTakeover cfg now s else (s, [])
        (s1, e1 ++ [.writePty (inputData ev)])

def onDataHandler (cfg : CtrlConfig) (now : Nat) (s : Ctrl) (data : String) :
    Ctrl × List Effect :=
  if s.handlersDetached || s.ptyDisposed then (s, [])
  else
    let s1 := { s with rawAll := s.rawAll ++ data }
    let s2 :=
      if s1.state = .handsFree ∧ cfg.updateMode = .onQuiet then
        { s1 with lastDataTime := now, hasUnsentData := true, quietArmed := true }
      else s1
    (s2, [.requestRender])

def onExitHandler (cfg : CtrlConfig) (now : Nat) (s : Ctrl)
    (ec sg : Option Int) : Ctrl × List Effect :=
  if s.handlersDetached || s.ptyDisposed then (s, [])
  else
    let s0 := { s with exitCode := ec, signal := sg }
    if s0.finished then (s0, [])
    else
      let s1 := stopTimeout s0
      let (s2, es1) :=
        match s1.state, cfg.hasUpdateCallback, s1.sessionId with
        | .handsFree, true, some _ =>
            let (sa, ea) := flushPendingUpdate cfg now s1
            let em :=
              match sa.sessionId with
              | some sid => [Effect.emitUpdate (exitedUpdate now sa sid)]
              | none => []
            let (sb, eb) := unregisterActiveSession sa
            (sb, ea ++ em ++ eb)
        | _, _, _ => (s1, [])
      let s3 := stopHandsFreeUpdates s2
      let s4 := startExitCountdown { s3 with state := .exited, exitCountdown := cfg.exitAutoCloseDelay }
      (s4, es1 ++ [.requestRender])

def countdownTickHandler (cfg : CtrlConfig) (s : Ctrl) : Ctrl × List Effect :=
  if s.countdownArmed then
    let s1 := { s with exitCountdown := s.exitCountdown - 1 }
    if s1.exitCountdown ≤ 0 then finishWithExit cfg s1
    else (s1, [.requestRender])
  else (s, [])

def timeoutFireHandler (cfg : CtrlConfig) (now : Nat) (s : Ctrl) : Ctrl × List Effect :=
  if s.timeoutArmed then finishWithTimeout cfg now s else (s, [])

def intervalTickHandler (cfg : CtrlConfig) (now : Nat) (s : Ctrl) : Ctrl × List Effect :=
  if s.intervalArmed then
    if s.state = .handsFree then
      match cfg.updateMode with
      | .onQuiet =>
          if s.hasUnsentData then
            let (s1, es) := emitHandsFreeUpdate cfg now s
            ({ s1 with hasUnsentData := false, quietArmed := false }, es)
          else (s, [])
      | .interval => emitHandsFreeUpdate cfg now s
    else (s, [])
  else (s, [])

def initialFireHandler (cfg : CtrlConfig) (now : Nat) (s : Ctrl) : Ctrl × List Effect :=
  if s.initialArmed then
    let s1 := { s with initialArmed := false }
    if s1.state = .handsFree then emitHandsFreeUpdate cfg now s1 else (s1, [])
  else (s, [])

def quietFireHandler (cfg : CtrlConfig) (now : Nat) (s : Ctrl) : Ctrl × List Effect :=
  if s.quietArmed then
    let s1 := { s with quietArmed := false }
    if s1.state = .handsFree ∧ s1.hasUnsentData then
      let (s2, es) := emitHandsFreeUpdate cfg now s1
      ({ s2 with hasUnsentData := false }, es)
    else (s1, [])
  else (s, [])

def setUpdateInterval (intervalMs : Int) (s : Ctrl) : Ctrl :=
  let clamped := max 5000 (min 300000 intervalMs)
  if clamped = s.currentUpdateInterval then s
  else
    let s1 := { s with currentUpdateInterval := clamped }
    if s1.intervalArmed then { s1 with intervalEpoch := s1.intervalEpoch + 1 } else s1

def setQuietThreshold (thresholdMs : Int) (s : Ctrl) : Ctrl :=
  let clamped := max 1000 (min 30000 thresholdMs)
  if clamped = s.currentQuietThreshold then s
  else { s with currentQuietThreshold := clamped }

/-- The event alphabet delivered by the single-threaded dispatcher, each
tagged with the `Date.now()` value at delivery. -/
inductive Event where
  | onData (data : String)
  | onExit (exitCode : Option Int) (signal : Option Int)
  | input (ev : InputEvent)
  | countdownTick
  | timeoutFire
  | intervalTick
  | initialFire
  | quietFire
  | setUpdateIntervalReq (v : Int)
  | setQuietThresholdReq (v : Int)
  | writeReq (data : String)
deriving DecidableEq

def stepEv (cfg : CtrlConfig) (s : Ctrl) (te : Nat × Event) : Ctrl × List Effect :=
  match te.2 with
  | .onData d => onDataHandler cfg te.1 s d
  | .onExit ec sg => onExitHandler cfg te.1 s ec sg
  | .input ev => handleInput cfg te.1 s ev
  | .countdownTick => countdownTickHandler cfg s
  | .timeoutFire => timeoutFireHandler cfg te.1 s
  | .intervalTick => intervalTickHandler cfg te.1 s
  | .initialFire => initialFireHandler cfg te.1 s
  | .quietFire => quietFireHandler cfg te.1 s
  | .setUpdateIntervalReq v => (setUpdateInterval v s, [])
  | .setQuietThresholdReq v => (setQuietThreshold v s, [])
  | .writeReq d => (s, [.writePty d])

def runEvents (cfg : CtrlConfig) (s : Ctrl) : List (Nat × Event) → Ctrl × List Effect
  | [] => (s, [])
  | te :: rest =>
      let (s1, e1) := stepEv cfg s te
      let (s2, e2) := runEvents cfg s1 rest
      (s2, e1 ++ e2)

/-- The constructor: state, hands-free registration and timer arming. -/
def initCtrl (cfg : CtrlConfig) : Ctrl × List Effect :=
  let base : Ctrl :=
    { state := .running, dialogSelection := .background, exitCountdown := 0,
      lastEscapeTime := 0, countdownArmed := false, userTookOver := false,
      intervalArmed := false, initialArmed := false, startTime := cfg.startTime,
      sessionId := none, sessionUnregistered := false, timeoutArmed := false,
      timedOut := false, finished := false, totalCharsSent := 0,
      budgetExhausted := false, currentUpdateInterval := cfg.updateInterval0,
      currentQuietThreshold := cfg.quietThreshold0, lastDataTime := 0,
      quietArmed := false, hasUnsentData := false, rawAll := "", rawCursor := 0,
      exitCode := none, signal := none, ptyDisposed := false,
      handlersDetached := false, intervalEpoch := 0 }
  let (s1, e1) :=
    if cfg.mode = .handsFree then
      ({ base with state := .handsFree, sessionId := some cfg.sessionId0,
                   initialArmed := true, intervalArmed := true },
       [Effect.registerActive cfg.sessionId0])
    else (base, [])
  let s2 :=
    match cfg.timeoutMs with
    | some t => if 0 < t then { s1 with timeoutArmed := true } else s1
    | none => s1
  (s2, e1)

/-! ### The session registry (src/session-manager.ts) -/

/-- The registry maps relevant to the claims: the keys of
`activeSessions` and the module-level `usedIds` set. -/
structure Registry where
  activeIds : List String
  usedIds : List String
deriving DecidableEq

def Registry.releaseSessionId (r : Registry) (id : String) : Registry :=
  { r with usedIds := r.usedIds.erase id }

/-- `unregisterActive(id, releaseId = false)`: always deletes from the
active map; releases the id only when `releaseId` is passed as `true`. -/
def Registry.unregisterActive (r : Registry) (id : String) (releaseId : Bool) : Registry :=
  let r1 := { r with activeIds := r.activeIds.erase id }
  if releaseId then r1.releaseSessionId id else r1

def applyEffect (r : Registry) (e : Effect) : Registry :=
  match e with
  | .registerActive id => { r with activeIds := id :: r.activeIds }
  | .unregisterActive id rel => r.unregisterActive id rel
  | _ => r

/-! ### Observables used by the claims about the controller -/

def countDone (effs : List Effect) : Nat :=
  effs.countP fun e => match e with | .callDone _ => true | _ => false

def allTimersOff (s : Ctrl) : Bool :=
  !s.countdownArmed && !s.timeoutArmed && !s.intervalArmed && !s.initialArmed && !s.quietArmed

def isTimerOrExitEvent : Event → Bool
  | .countdownTick | .timeoutFire | .intervalTick | .initialFire | .quietFire => true
  | .onExit _ _ => true
  | _ => false

/-- An effect list contains a `user-takeover` notification. -/
def hasTakeoverUpdate (effs : List Effect) : Bool :=
  effs.any fun e =>
    match e with
    | .emitUpdate u => u.status = "user-takeover"
    | _ => false

/-! ### The driver facade's query path (`execute`, src/index.ts)

The status-only query branch for a session with an `ActiveSession` handle
(lines 135-330 of src/index.ts).  The handle's closures (`getOutput`,
`getStatus`, `getRuntime`, `getResult`) are modelled as snapshots of their
return values at each moment the facade consults them; the
`Promise.race([setTimeout(waitMs), onComplete])` becomes an explicit race
outcome, which can report completion only strictly before the wait
elapses, so the facade's suspension lasts `min t waitMs` milliseconds. -/

structure FacadeOutputResult where
  output : String
  truncated : Bool
  totalBytes : Nat
  totalLines : Option Nat := none
  hasMore : Option Bool := none
  rateLimited : Option Bool := none
  waitSeconds : Option Nat := none
deriving DecidableEq

structure FacadeSessionResult where
  exitCode : Option Int := none
  signal : Option Int := none
  backgroundId : Option String := none
deriving DecidableEq

/-- A snapshot of the `ActiveSession` observables at one moment. -/
structure SessionView where
  outputRes : FacadeOutputResult
  status : String
  runtime : Nat
  result : Option FacadeSessionResult
deriving DecidableEq

inductive RaceOutcome where
  | waitElapsed
  | completedEarly (tMs : Nat)
deriving DecidableEq

structure QueryEnv where
  entry : SessionView
  race : RaceOutcome
  afterEarly : Option SessionView
  afterWait : SessionView
deriving DecidableEq

structure QueryResponse where
  status : String
  runtime : Nat
  output : String
  exitCode : Option Int := none
  unregisteredWithRelease : Bool := false
  elapsedMs : Nat := 0
deriving DecidableEq

/-- The JS truthiness test
`if (outputResult.rateLimited && outputResult.waitSeconds)`:
yields the wait when `rateLimited` is `true` and `waitSeconds` is a
nonzero number. -/
def truthyWait (o : FacadeOutputResult) : Option Nat :=
  if o.rateLimited = some true then
    match o.waitSeconds with
    | some w => if w = 0 then none else some w
    | none => none
  else none

/-- The status-only query path of `execute` for a found session with no
`kill`/`settings`/`input` in the request. -/
def queryStatus (env : QueryEnv) : QueryResponse :=
  match env.entry.result with
  | some r =>
      { status := env.entry.status, runtime := env.entry.runtime,
        output := env.entry.outputRes.output, exitCode := r.exitCode,
        unregisteredWithRelease := true, elapsedMs := 0 }
  | none =>
      let outputResult := env.entry.outputRes
      match truthyWait outputResult with
      | some w =>
          let waitMs := w * 1000
          match env.race with
          | .completedEarly t =>
              match env.afterEarly with
              | none =>
                  { status := "ended", runtime := env.entry.runtime, output := "",
                    elapsedMs := min t waitMs }
              | some s =>
                  match s.result with
                  | some r =>
                      { status := s.status, runtime := s.runtime,
                        output := s.outputRes.output, exitCode := r.exitCode,
                        unregisteredWithRelease := true, elapsedMs := min t waitMs }
                  | none =>
                      { status := s.status, runtime := s.runtime,
                        output := s.outputRes.output, elapsedMs := min t waitMs }
          | .waitElapsed =>
              let s := env.afterWait
              match s.result with
              | some r =>
                  { status := s.status, runtime := s.runtime,
                    output := s.outputRes.output, exitCode := r.exitCode,
                    unregisteredWithRelease := true, elapsedMs := waitMs }
              | none =>
                  { status := s.status, runtime := s.runtime,
                    output := s.outputRes.output, elapsedMs := waitMs }
      | none =>
          { status := env.entry.status, runtime := env.entry.runtime,
            output := outputResult.output, elapsedMs := 0 }

/-! ### Concrete instances used by witnesses and counterexamples -/

/-- A hands-free session configuration at the documented defaults. -/
def cfgW : CtrlConfig :=
  { mode := .handsFree, sessionId0 := "calm-reef", command := "pi --help",
    updateMode := .onQuiet, updateInterval0 := 60000, quietThreshold0 := 5000,
    updateMaxChars := 1500, maxTotalChars := 100000, hasUpdateCallback := true,
    timeoutMs := none, exitAutoCloseDelay := 10, doubleEscapeThreshold := 500,
    previewEnabled := true, previewLines := 30, previewMaxChars := 2000,
    snapshotEnabled := false, snapshotLines := 200, snapshotMaxChars := 12000,
    rows := 20, bgId := "swift-atlas", startTime := 1000 }

/-- The controller state right after hands-free construction. -/
def ctrlW : Ctrl := (initCtrl cfgW).1

/-- The registry holding the freshly generated id. -/
def regW : Registry := { activeIds := ["calm-reef"], usedIds := ["calm-reef"] }

/-- A chunk whose length equals a `maxTotalChars` value in the configured
range (the minimum clamp), filling the budget exactly. -/
def c1ChunkA : String := String.mk (List.replicate 10000 'x')

/-- A rate-limited query environment: running session, 60 s wait, child
completes 3 s into the wait with exit code 0. -/
def qEnvW : QueryEnv :=
  { entry := { outputRes := { output := "", truncated := false, totalBytes := 42,
                              rateLimited := some true, waitSeconds := some 60 },
               status := "running", runtime := 1000, result := none },
    race := .completedEarly 3000,
    afterEarly := some { outputRes := { output := "done", truncated := false, totalBytes := 46 },
                         status := "exited", runtime := 4000,
                         result := some { exitCode := some 0 } },
    afterWait := { outputRes := { output := "", truncated := false, totalBytes := 42 },
                   status := "running", runtime := 61000, result := none } }

/-- The post-finish invariant of the controller: once `finished` is set,
every timer is stopped and the pty has been disposed (exit, kill, timeout
paths) or the handlers detached (background path), so the guarded `onData`
/ `onExit` callbacks and the unarmed timer callbacks can do nothing. -/
def ctrlInv (s : Ctrl) : Prop :=
  s.finished = true →
    (allTimersOff s = true ∧ (s.ptyDisposed = true ∨ s.handlersDetached = true))

/-- A concrete hands-free run: the child exits, then the user presses
enter on the exited screen, which finishes the session immediately. -/
def c5Events : List (Nat × Event) :=
  [(2000, Event.onExit (some 0) none), (2100, Event.input InputEvent.enter)]

/-! ## Theorems -/

/-- C8: For every string `s`, applying the input translation to `s` given
as a raw (non-structured) string returns `s` unchanged. -/
theorem c8_raw_identity (s : String) : translateInput (.raw s) = s := rfl

/-- Auxiliary: a `String.mk` over `filterMap` equals the join of the
per-element encodings. -/
theorem mk_filterMap_join (f : String → Option Char) (l : List String) :
    String.mk (l.filterMap f) =
      String.join (l.map fun h => match f h with | some c => String.mk [c] | none => "") := by
  rw [String.join_eq]
  refine congrArg String.mk ?_
  induction l with
  | nil => rfl
  | cons h t ih =>
      cases hf : f h <;>
        simp [List.filterMap_cons, hf, ih]

/-- C7 (counterexample): a structured record whose `paste` field is
present but empty is translated to the empty string, while the claim as
stated requires the bracketed-paste markers around the empty paste text. -/
theorem c7_translate_counterexample :
    translateInput (.struct { paste := some "" }) = "" ∧
    translateInputClaimC7 (.struct { paste := some "" }) = "\x1b[200~\x1b[201~" ∧
    translateInput (.struct { paste := some "" }) ≠
      translateInputClaimC7 (.struct { paste := some "" }) := by
  refine ⟨rfl, rfl, ?_⟩
  decide

/-- C7 (amended): for every structured input record, `translateInput`
produces exactly the concatenation, in this order, of the decoded valid
hex bytes, the literal text, the encoding of each key token in sequence,
and — when the paste text is nonempty — the paste text wrapped between
`ESC[200~` and `ESC[201~` (an empty or absent paste contributes
nothing). -/
theorem c7_translate_order (i : StructuredInput) :
    translateInput (.struct i) =
      String.join ((i.hex.getD []).map fun h =>
          match decodeHexByte h with | some c => String.mk [c] | none => "")
        ++ i.text.getD ""
        ++ String.join ((i.keys.getD []).map encodeKeyToken)
        ++ (match i.paste with
            | some p =>
                if p = "" then ""
                else BRACKETED_PASTE_START ++ p ++ BRACKETED_PASTE_END
            | none => "") := by
  have hhex : hexPart i.hex =
      String.join ((i.hex.getD []).map fun h =>
        match decodeHexByte h with | some c => String.mk [c] | none => "") := by
    cases hx : i.hex with
    | none => rfl
    | some hs =>
        cases hs with
        | nil => rfl
        | cons a t => simpa [hexPart] using mk_filterMap_join decodeHexByte (a :: t)
  have htext : textPart i.text = i.text.getD "" := by
    cases ht : i.text with
    | none => rfl
    | some t =>
        by_cases h : t = "" <;> simp [textPart, h]
  have hkeys : keysPart i.keys = String.join ((i.keys.getD []).map encodeKeyToken) := by
    cases i.keys <;> rfl
  have hpaste : pastePart i.paste =
      (match i.paste with
       | some p =>
           if p = "" then "" else BRACKETED_PASTE_START ++ p ++ BRACKETED_PASTE_END
       | none => "") := by
    cases hp : i.paste with
    | none => rfl
    | some p => by_cases h : p = "" <;> simp [pastePart, h, encodePaste]
  show hexPart i.hex ++ textPart i.text ++ keysPart i.keys ++ pastePart i.paste = _
  rw [hhex, htext, hkeys, hpaste]

/-- Auxiliary: the loop of `maybeBuildHandoffPreview` never grows the
accumulator beyond the `lines` bound. -/
theorem handoffTailLoop_length_le (L M : Nat) (rl acc : List String) (c : Nat)
    (h : acc.length ≤ L) : (handoffTailLoop L M rl acc c).length ≤ L := by
  induction rl generalizing acc c with
  | nil => simpa [handoffTailLoop] using h
  | cons l rest ih =>
      by_cases h1 : L ≤ acc.length
      · simpa [handoffTailLoop, h1] using h
      · by_cases h2 : M < c + l.length ∧ 0 < acc.length
        · simpa [handoffTailLoop, h1, h2] using h
        · have := ih (l :: acc) (c + l.length + 1) (by simp; omega)
          simpa [handoffTailLoop, h1, h2] using this

/-- Auxiliary: the loop returns the reversal of a consumed front of its
input list, prepended to the accumulator. -/
theorem handoffTailLoop_consumed (L M : Nat) (rl acc : List String) (c : Nat) :
    ∃ u v, rl = u ++ v ∧ handoffTailLoop L M rl acc c = u.reverse ++ acc := by
  induction rl generalizing acc c with
  | nil => exact ⟨[], [], rfl, by simp [handoffTailLoop]⟩
  | cons l rest ih =>
      by_cases h1 : L ≤ acc.length
      · exact ⟨[], l :: rest, rfl, by simp [handoffTailLoop, h1]⟩
      · by_cases h2 : M < c + l.length ∧ 0 < acc.length
        · exact ⟨[], l :: rest, rfl, by simp [handoffTailLoop, h1, h2]⟩
        · obtain ⟨u, v, huv, hres⟩ := ih (l :: acc) (c + l.length + 1)
          refine ⟨l :: u, v, by simp [huv], ?_⟩
          simp [handoffTailLoop, h1, h2, hres]

/-- Auxiliary: the char budget of the loop, in the invariant form that
survives the unconditional inclusion of the first (last-of-log) line. -/
theorem handoffTailLoop_chars (L M : Nat) (rl acc : List String) (c : Nat)
    (hc : c = (acc.map String.length).sum + acc.length)
    (hinv : 2 ≤ acc.length → (acc.map String.length).sum + acc.length - 1 ≤ M) :
    2 ≤ (handoffTailLoop L M rl acc c).length →
      ((handoffTailLoop L M rl acc c).map String.length).sum +
        (handoffTailLoop L M rl acc c).length - 1 ≤ M := by
  induction rl generalizing acc c with
  | nil => simpa [handoffTailLoop] using hinv
  | cons l rest ih =>
      by_cases h1 : L ≤ acc.length
      · simpa [handoffTailLoop, h1] using hinv
      · by_cases h2 : M < c + l.length ∧ 0 < acc.length
        · simpa [handoffTailLoop, h1, h2] using hinv
        · have hstep := ih (l :: acc) (c + l.length + 1)
            (by simp [hc]; ring)
            (by
              intro hlen
              rcases Nat.eq_zero_or_pos acc.length with hz | hpos
              · simp at hlen; omega
              · have hle : c + l.length ≤ M := by
                  rcases not_and_or.mp h2 with h | h
                  · omega
                  · omega
                simp
                omega)
          simpa [handoffTailLoop, h1, h2] using hstep

/-- C9 (counterexample): with `lines = 1`, `maxChars = 1` and raw log
`"aa"`, the preview is the single line `"aa"` whose character count `2`
exceeds `maxChars = 1`. -/
theorem c9_preview_counterexample :
    maybeBuildHandoffPreview true 1 1 "aa" = some ["aa"] ∧
    1 < ((["aa"] : List String).map String.length).sum := by
  refine ⟨?_, by decide⟩
  decide

/-- C9 (amended): for positive `lines` and `maxChars`, the preview is a
suffix of the split lines of the raw log of length at most `lines`, and
its total character count is bounded by `maxChars` whenever it holds at
least two lines (the single last line is always included, even when it
alone exceeds the bound). -/
theorem c9_preview_amended (lines maxChars : Int) (rawOutput : String)
    (tail : List String)
    (hl : 0 < lines) (hm : 0 < maxChars)
    (h : maybeBuildHandoffPreview true lines maxChars rawOutput = some tail) :
    tail.length ≤ lines.toNat ∧
    (∃ t, t ++ tail = jsSplitNl rawOutput) ∧
    (2 ≤ tail.length → (tail.map String.length).sum ≤ maxChars.toNat) := by
  have hne : ¬(lines ≤ 0 ∨ maxChars ≤ 0) := by omega
  have htail : tail =
      handoffTailLoop lines.toNat maxChars.toNat (jsSplitNl rawOutput).reverse [] 0 := by
    have := h
    simp only [maybeBuildHandoffPreview, Bool.not_true, if_false, hne] at this
    simpa using this.symm
  subst htail
  refine ⟨handoffTailLoop_length_le _ _ _ _ _ (by simp), ?_, ?_⟩
  · obtain ⟨u, v, huv, hres⟩ :=
      handoffTailLoop_consumed lines.toNat maxChars.toNat (jsSplitNl rawOutput).reverse [] 0
    refine ⟨v.reverse, ?_⟩
    rw [hres]
    have hsp : jsSplitNl rawOutput = v.reverse ++ u.reverse := by
      have h2 := congrArg List.reverse huv
      simpa [List.reverse_append] using h2
    simp [hsp]
  · intro h2
    have := handoffTailLoop_chars lines.toNat maxChars.toNat
      (jsSplitNl rawOutput).reverse [] 0 (by simp) (by simp) h2
    omega

/-- C9 (witness for the amended theorem): a concrete two-line preview. -/
theorem c9_preview_witness :
    (handoffTailLoop 3 10 ((jsSplitNl "a\nbb\nccc").reverse) [] 0).length ≤ 3 := by
  have h := c9_preview_amended 3 10 "a\nbb\nccc"
    (handoffTailLoop 3 10 ((jsSplitNl "a\nbb\nccc").reverse) [] 0)
    (by decide) (by decide) (by decide)
  simpa using h.1

/-- C10: the runtime setters clamp to `[5000, 300000]` (update interval)
and `[1000, 30000]` (quiet threshold), and a call whose clamped value
equals the current setting is a no-op — in particular the interval timer
is not restarted (the state, including the restart counter
`intervalEpoch`, is unchanged). -/
theorem c10_setters (v : Int) (s : Ctrl) :
    (setUpdateInterval v s).currentUpdateInterval = min 300000 (max 5000 v) ∧
    (setQuietThreshold v s).currentQuietThreshold = min 30000 (max 1000 v) ∧
    (min 300000 (max 5000 v) = s.currentUpdateInterval → setUpdateInterval v s = s) ∧
    (min 30000 (max 1000 v) = s.currentQuietThreshold → setQuietThreshold v s = s) := by
  have hmax1 : max 5000 (min 300000 v) = min 300000 (max 5000 v) := by
    rcases le_total v 5000 with h1 | h1 <;> rcases le_total v 300000 with h2 | h2 <;>
      simp [max_def, min_def] <;> split_ifs <;> omega
  have hmax2 : max 1000 (min 30000 v) = min 30000 (max 1000 v) := by
    rcases le_total v 1000 with h1 | h1 <;> rcases le_total v 30000 with h2 | h2 <;>
      simp [max_def, min_def] <;> split_ifs <;> omega
  refine ⟨?_, ?_, ?_, ?_⟩
  · rw [setUpdateInterval, ← hmax1]
    split_ifs with h
    · exact h.symm
    · by_cases hA : s.intervalArmed = true <;> simp [hA]
  · rw [setQuietThreshold, ← hmax2]
    split_ifs with h
    · exact h.symm
    · simp
  · intro h
    rw [setUpdateInterval]
    rw [hmax1, h]
    simp
  · intro h
    rw [setQuietThreshold]
    rw [hmax2, h]
    simp

/-- C10 (witness): at the current settings the calls are no-ops. -/
theorem c10_setters_witness :
    setUpdateInterval 60000 ctrlW = ctrlW ∧ setQuietThreshold 5000 ctrlW = ctrlW :=
  ⟨(c10_setters 60000 ctrlW).2.2.1 (by decide), (c10_setters 5000 ctrlW).2.2.2 (by decide)⟩

/-- C6: a query on a running session answered `rate_limited` with a
positive `wait_seconds` suspends for at most `wait_seconds` (in ms), and
when the session completes during the wait with a result available, the
facade returns that completion result — its final output and exit
information — after unregistering, instead of waiting out the interval. -/
theorem c6_rate_limit_race (env : QueryEnv) (w : Nat)
    (hrun : env.entry.result = none)
    (hw : truthyWait env.entry.outputRes = some w) :
    (queryStatus env).elapsedMs ≤ w * 1000 ∧
    (∀ t s r, env.race = .completedEarly t → env.afterEarly = some s →
      s.result = some r →
      (queryStatus env).exitCode = r.exitCode ∧
      (queryStatus env).output = s.outputRes.output ∧
      (queryStatus env).status = s.status ∧
      (queryStatus env).unregisteredWithRelease = true ∧
      (queryStatus env).elapsedMs = min t (w * 1000)) := by
  constructor
  · simp only [queryStatus, hrun, hw]
    cases hr : env.race with
    | completedEarly t =>
        cases ha : env.afterEarly with
        | none => simpa using Nat.min_le_right t (w * 1000)
        | some s =>
            cases hs : s.result <;> simp [hs, Nat.min_le_right]
    | waitElapsed =>
        cases hs : env.afterWait.result <;> simp [hs]
  · intro t s r hr ha hs
    simp [queryStatus, hrun, hw, hr, ha, hs]

/-- C6 (witness): the concrete environment `qEnvW` (wait 60 s, completion
3 s in, exit code 0). -/
theorem c6_rate_limit_race_witness :
    (queryStatus qEnvW).elapsedMs ≤ 60 * 1000 ∧
    (queryStatus qEnvW).exitCode = some 0 := by
  have h := c6_rate_limit_race qEnvW 60 (by decide) (by decide)
  have h2 := h.2 3000
    { outputRes := { output := "done", truncated := false, totalBytes := 46 },
      status := "exited", runtime := 4000, result := some { exitCode := some 0 } }
    { exitCode := some 0 } (by decide) (by decide) (by decide)
  exact ⟨h.1, by rw [h2.1]⟩

/-- C4: the code, evaluated on the exit path of a hands-free controller:
`finishWithExit` unregisters the session from the active map, but calls
`unregisterActive` without `releaseId`, which defaults to `false`, so the
SessionId `"calm-reef"` remains in the used-ID set — the claim (and the
`killAll` comment in src/session-manager.ts) say it is released. -/
theorem c4_id_not_released_eval :
    ((finishWithExit cfgW ctrlW).2.foldl applyEffect regW).activeIds = [] ∧
    ((finishWithExit cfgW ctrlW).2.foldl applyEffect regW).usedIds = ["calm-reef"] := by
  decide

/-- Auxiliary: the split of a string is never the empty list. -/
theorem splitNlAux_ne_nil (l cur : List Char) : splitNlAux l cur ≠ [] := by
  induction l generalizing cur with
  | nil => simp [splitNlAux]
  | cons c rest ih =>
      by_cases h : c = '\n' <;> simp [splitNlAux, h, ih]

/-- Auxiliary: segment lengths plus separators reconstruct the input
length. -/
theorem splitNlAux_sum (l cur : List Char) :
    ((splitNlAux l cur).map List.length).sum + (splitNlAux l cur).length - 1
      = l.length + cur.length := by
  induction l generalizing cur with
  | nil => simp [splitNlAux]
  | cons c rest ih =>
      by_cases h : c = '\n'
      · have hpos : 0 < (splitNlAux rest []).length :=
          List.length_pos.mpr (splitNlAux_ne_nil rest [])
        have hr := ih ([] : List Char)
        simp [splitNlAux, h] at hr ⊢
        omega
      · have hr := ih (c :: cur)
        simp [splitNlAux, h] at hr ⊢
        omega

/-- Auxiliary: the joined length of `jsSplitNl s` is the length of `s`. -/
theorem joinedLen_jsSplitNl (s : String) : joinedLen (jsSplitNl s) = s.length := by
  have h1 := splitNlAux_sum s.data []
  have h2 := splitNlAux_ne_nil s.data []
  rcases hm : splitNlAux s.data [] with _ | ⟨p, ps⟩
  · exact absurd hm h2
  · rw [hm] at h1
    have hj : jsSplitNl s = String.mk p :: ps.map String.mk := by
      rw [jsSplitNl, hm, List.map_cons]
    have hcomp : (ps.map String.mk).map String.length = ps.map List.length := by
      rw [List.map_map]
      rfl
    rw [hj]
    simp only [joinedLen, List.map_cons, List.sum_cons, List.length_cons, List.length_map]
    rw [hcomp]
    simp only [List.map_cons, List.sum_cons, List.length_cons, List.length_nil] at h1
    have hsl : s.length = s.data.length := rfl
    have hstr : (String.mk p).length = p.length := rfl
    rw [hsl, hstr]
    omega

/-- Auxiliary: the length of `s.slice(-n)` for `n ≠ 0`. -/
theorem jsSliceNeg_length (s : String) (n : Nat) (hn : n ≠ 0) :
    (jsSliceNeg s n).length = min n s.length := by
  have hlen : s.length = s.data.length := rfl
  rw [jsSliceNeg, if_neg hn]
  show (s.data.drop (s.length - n)).length = min n s.length
  rw [List.length_drop, hlen]
  omega

/-- Auxiliary: a string without characters is the empty string. -/
theorem eq_empty_of_not_pos (s : String) (h : ¬ 0 < s.length) : s = "" := by
  cases s with
  | mk d =>
      cases d with
      | nil => rfl
      | cons a t => simp [String.length] at h

/-- Auxiliary: `mkEmitResult` accounting. -/
theorem mkEmitResult_total (t0 : Nat) (be tr : Bool) (o2 : String) :
    (mkEmitResult t0 be tr o2).totalCharsSent = t0 + o2.length := by
  unfold mkEmitResult
  split_ifs with h <;> simp <;> omega

theorem mkEmitResult_content (t0 : Nat) (be tr : Bool) (o2 : String) :
    (mkEmitResult t0 be tr o2).content = o2 := by
  unfold mkEmitResult
  split_ifs <;> rfl

theorem mkEmitResult_be (t0 : Nat) (be tr : Bool) (o2 : String) :
    (mkEmitResult t0 be tr o2).budgetExhausted = be := by
  unfold mkEmitResult
  split_ifs <;> rfl

theorem mkEmitResult_joined (t0 : Nat) (be tr : Bool) (o2 : String) :
    joinedLen (mkEmitResult t0 be tr o2).tail = o2.length := by
  unfold mkEmitResult
  split_ifs with h
  · exact joinedLen_jsSplitNl o2
  · simp [joinedLen]; omega

theorem mkEmitResult_tail_nil (t0 : Nat) (be tr : Bool) (o2 : String)
    (h : o2.length = 0) : (mkEmitResult t0 be tr o2).tail = [] := by
  unfold mkEmitResult
  rw [if_neg (by omega)]

/-- Auxiliary: `emitCore` adds exactly the length of the emitted content
to the running total. -/
theorem emitCore_total (mc mt t : Nat) (b : Bool) (raw : String) :
    (emitCore mc mt t b raw).totalCharsSent = t + (emitCore mc mt t b raw).content.length := by
  cases b with
  | true => simp [emitCore]
  | false =>
      simp only [emitCore, Bool.false_eq_true, if_false]
      split_ifs <;> rw [mkEmitResult_total, mkEmitResult_content]

/-- Auxiliary: the joined length of an emission's `tail` is the length of
its content. -/
theorem emitCore_joined (mc mt t : Nat) (b : Bool) (raw : String) :
    joinedLen (emitCore mc mt t b raw).tail = (emitCore mc mt t b raw).content.length := by
  cases b with
  | true => simp [emitCore, joinedLen]
  | false =>
      simp only [emitCore, Bool.false_eq_true, if_false]
      split_ifs <;> rw [mkEmitResult_joined, mkEmitResult_content]

/-- Auxiliary: the per-emission budget invariant: a total within budget
stays within budget. -/
theorem emitCore_le (mc mt t : Nat) (b : Bool) (raw : String) (ht : t ≤ mt) :
    (emitCore mc mt t b raw).totalCharsSent ≤ mt := by
  cases b with
  | true => simpa [emitCore] using ht
  | false =>
      simp only [emitCore, Bool.false_eq_true, if_false]
      generalize (if mc < raw.length then jsSliceNeg raw mc else raw) = o1
      split_ifs with h2 h3 <;> rw [mkEmitResult_total]
      · have hn : ((mt : Int) - (t : Int)).toNat ≠ 0 := by omega
        rw [jsSliceNeg_length _ _ hn]
        have hmin := Nat.min_le_left (((mt : Int) - (t : Int)).toNat) o1.length
        omega
      · have hz : ("" : String).length = 0 := rfl
        omega
      · omega

/-- Auxiliary: at a saturated budget the emission carries no content. -/
theorem emitCore_sat (mc mt : Nat) (b : Bool) (raw : String) :
    (emitCore mc mt mt b raw).content = "" ∧
    (emitCore mc mt mt b raw).tail = [] ∧
    (emitCore mc mt mt b raw).totalCharsSent = mt := by
  cases b with
  | true => simp [emitCore]
  | false =>
      simp only [emitCore, Bool.false_eq_true, if_false]
      generalize (if mc < raw.length then jsSliceNeg raw mc else raw) = o1
      split_ifs with h2 h3
      · exact absurd h3 (by omega)
      · refine ⟨mkEmitResult_content _ _ _ _, mkEmitResult_tail_nil _ _ _ _ rfl, ?_⟩
        rw [mkEmitResult_total]
        have hz : ("" : String).length = 0 := rfl
        omega
      · have h0 : o1.length = 0 := by omega
        refine ⟨?_, mkEmitResult_tail_nil _ _ _ _ h0, ?_⟩
        · rw [mkEmitResult_content]
          exact eq_empty_of_not_pos _ (by omega)
        · rw [mkEmitResult_total]
          omega

/-- Auxiliary: an exhausted budget flag freezes the state and empties
every emission. -/
theorem emitCore_exh (mc mt t : Nat) (raw : String) :
    emitCore mc mt t true raw =
      { totalCharsSent := t, budgetExhausted := true, content := "",
        tail := [], truncated := false } := by
  simp [emitCore]

/-- Auxiliary: `emitFold` distributes over list append. -/
theorem emitFold_append (mc mt : Nat) (pre post : List String) : ∀ st,
    emitFold mc mt st (pre ++ post) =
      ((emitFold mc mt (emitFold mc mt st pre).1 post).1,
        (emitFold mc mt st pre).2 ++ (emitFold mc mt (emitFold mc mt st pre).1 post).2) := by
  induction pre with
  | nil => intro st; simp [emitFold]
  | cons c rest ih =>
      intro st
      obtain ⟨t, b⟩ := st
      simp only [List.cons_append, emitFold]
      rw [show rest.append post = rest ++ post from rfl, ih]

/-- Auxiliary: the final total is the initial total plus the joined
lengths of the emitted tails. -/
theorem emitFold_total (mc mt : Nat) (chunks : List String) : ∀ t b,
    (emitFold mc mt (t, b) chunks).1.1
      = t + ((emitFold mc mt (t, b) chunks).2.map fun r => joinedLen r.tail).sum := by
  induction chunks with
  | nil => intro t b; simp [emitFold]
  | cons c rest ih =>
      intro t b
      have h1 := emitCore_total mc mt t b c
      have h2 := emitCore_joined mc mt t b c
      have h3 := ih (emitCore mc mt t b c).totalCharsSent (emitCore mc mt t b c).budgetExhausted
      simp only [emitFold]
      rcases hfold : emitFold mc mt
        ((emitCore mc mt t b c).totalCharsSent, (emitCore mc mt t b c).budgetExhausted) rest
        with ⟨st1, rs⟩
      rw [hfold] at h3
      simp at h3 ⊢
      omega

/-- Auxiliary: the running total never exceeds the budget. -/
theorem emitFold_le (mc mt : Nat) (chunks : List String) : ∀ t b, t ≤ mt →
    (emitFold mc mt (t, b) chunks).1.1 ≤ mt := by
  induction chunks with
  | nil => intro t b ht; simpa [emitFold] using ht
  | cons c rest ih =>
      intro t b ht
      have h1 := emitCore_le mc mt t b c ht
      simp only [emitFold]
      rcases hfold : emitFold mc mt
        ((emitCore mc mt t b c).totalCharsSent, (emitCore mc mt t b c).budgetExhausted) rest
        with ⟨st1, rs⟩
      have := ih (emitCore mc mt t b c).totalCharsSent (emitCore mc mt t b c).budgetExhausted h1
      rw [hfold] at this
      simpa using this

/-- Auxiliary: from a saturated total, every later emission is empty. -/
theorem emitFold_sat (mc mt : Nat) (chunks : List String) : ∀ b,
    (emitFold mc mt (mt, b) chunks).1.1 = mt ∧
    ∀ r ∈ (emitFold mc mt (mt, b) chunks).2, r.tail = [] ∧ r.content = "" := by
  induction chunks with
  | nil => intro b; simp [emitFold]
  | cons c rest ih =>
      intro b
      have hs := emitCore_sat mc mt b c
      simp only [emitFold]
      rcases hfold : emitFold mc mt
        ((emitCore mc mt mt b c).totalCharsSent, (emitCore mc mt mt b c).budgetExhausted) rest
        with ⟨st1, rs⟩
      have hrec := ih (emitCore mc mt mt b c).budgetExhausted
      rw [hs.2.2] at hfold
      rw [hfold] at hrec
      refine ⟨by simpa using hrec.1, ?_⟩
      intro r hr
      simp at hr
      rcases hr with hr | hr
      · subst hr; exact ⟨hs.2.1, hs.1⟩
      · exact hrec.2 r hr

/-- Auxiliary: once the exhausted flag is set it stays set, with empty
tails and `budget_exhausted = true` on every later emission. -/
theorem emitFold_exh (mc mt : Nat) (chunks : List String) : ∀ t,
    (emitFold mc mt (t, true) chunks).1 = (t, true) ∧
    ∀ r ∈ (emitFold mc mt (t, true) chunks).2, r.tail = [] ∧ r.budgetExhausted = true := by
  induction chunks with
  | nil => intro t; simp [emitFold]
  | cons c rest ih =>
      intro t
      have he := emitCore_exh mc mt t c
      simp only [emitFold, he]
      rcases hfold : emitFold mc mt (t, true) rest with ⟨st1, rs⟩
      have hrec := ih t
      rw [hfold] at hrec
      refine ⟨by simpa using hrec.1, ?_⟩
      intro r hr
      simp at hr
      rcases hr with hr | hr
      · subst hr; exact ⟨rfl, rfl⟩
      · exact hrec.2 r hr

/-- C1 (amended): across any sequence of hands-free emissions of one
controller starting from a fresh budget, the sum of the character counts
of the emitted tail contents (elements joined at the newlines they were
split at) never exceeds `max_total_chars`; once `total_chars_sent` has
reached `max_total_chars`, every subsequent emission carries an empty
tail; and once `budget_exhausted` has been set (which happens on the
first emission that would overrun the budget, not on a no-data emission
at an exactly filled budget), every subsequent emission carries an empty
tail and `budget_exhausted = true`. -/
theorem c1_budget_amended (mc mt : Nat) (pre post : List String) :
    (((emitFold mc mt (0, false) (pre ++ post)).2.map fun r => joinedLen r.tail).sum ≤ mt) ∧
    (mt ≤ (emitFold mc mt (0, false) pre).1.1 →
      ∀ r ∈ (emitFold mc mt (emitFold mc mt (0, false) pre).1 post).2,
        r.tail = [] ∧ r.content = "") ∧
    ((emitFold mc mt (0, false) pre).1.2 = true →
      ∀ r ∈ (emitFold mc mt (emitFold mc mt (0, false) pre).1 post).2,
        r.tail = [] ∧ r.budgetExhausted = true) := by
  refine ⟨?_, ?_, ?_⟩
  · have h1 := emitFold_total mc mt (pre ++ post) 0 false
    have h2 := emitFold_le mc mt (pre ++ post) 0 false (Nat.zero_le mt)
    omega
  · intro hge r hr
    have hle := emitFold_le mc mt pre 0 false (Nat.zero_le mt)
    rcases hfold : emitFold mc mt (0, false) pre with ⟨⟨tp, bp⟩, rsp⟩
    rw [hfold] at hge hr hle
    simp at hge hle hr
    have heq : tp = mt := le_antisymm hle hge
    rw [heq] at hr
    exact (emitFold_sat mc mt post bp).2 r hr
  · intro hb r hr
    rcases hfold : emitFold mc mt (0, false) pre with ⟨⟨tp, bp⟩, rsp⟩
    rw [hfold] at hb hr
    simp at hb hr
    subst hb
    exact (emitFold_exh mc mt post tp).2 r hr

/-- C1 (counterexample): one emission of exactly `max_total_chars = 10000`
characters fills the budget (`total_chars_sent` reaches the bound), yet
the following emission — arriving with no new output — carries
`budget_exhausted = false` (the claim requires `true`); its tail is
empty. -/
theorem c1_budget_counterexample :
    (emitFold 50000 10000 (0, false) [c1ChunkA]).1.1 = 10000 ∧
    ((emitFold 50000 10000 (0, false) [c1ChunkA, ""]).2.map
        fun r => (r.tail, r.budgetExhausted)).getLast? = some ([], false) := by
  have hlen : c1ChunkA.length = 10000 := by
    have h0 : c1ChunkA.length = (List.replicate 10000 'x').length := rfl
    rw [h0, List.length_replicate]
  have hA : (emitCore 50000 10000 0 false c1ChunkA).totalCharsSent = 10000 ∧
      (emitCore 50000 10000 0 false c1ChunkA).budgetExhausted = false := by
    have hc : ¬ (50000 < c1ChunkA.length) := by omega
    simp only [emitCore, Bool.false_eq_true, if_false, if_neg hc]
    rw [if_neg (show ¬ (10000 < 0 + c1ChunkA.length) by omega)]
    constructor
    · rw [mkEmitResult_total]; omega
    · rw [mkEmitResult_be]
  have hB : emitCore 50000 10000 10000 false "" =
      { totalCharsSent := 10000, budgetExhausted := false, content := "",
        tail := [], truncated := false } := by decide
  constructor
  · simp [emitFold, hA.1]
  · simp only [emitFold]
    rw [hA.1, hA.2, hB]
    simp

/-- C1 (witness for the amended theorem): a concrete saturated run. -/
theorem c1_budget_witness :
    ∀ r ∈ (emitFold 5 3 (emitFold 5 3 (0, false) ["abc"]).1 ["x"]).2,
      r.tail = [] ∧ r.content = "" :=
  (c1_budget_amended 5 3 ["abc"] ["x"]).2.1 (by decide)

/-- Auxiliary: takeover notifications distribute over effect-list append. -/
theorem hasTakeoverUpdate_append (a b : List Effect) :
    hasTakeoverUpdate (a ++ b) = (hasTakeoverUpdate a || hasTakeoverUpdate b) :=
  List.any_append

/-- Auxiliary: `emitHandsFreeUpdate` leaves the lifecycle fields alone and
never emits a takeover notification. -/
theorem emitHFU_proj (cfg : CtrlConfig) (now : Nat) (s : Ctrl) :
    (emitHandsFreeUpdate cfg now s).1.sessionId = s.sessionId ∧
    (emitHandsFreeUpdate cfg now s).1.sessionUnregistered = s.sessionUnregistered ∧
    (emitHandsFreeUpdate cfg now s).1.userTookOver = s.userTookOver ∧
    (emitHandsFreeUpdate cfg now s).1.state = s.state ∧
    hasTakeoverUpdate (emitHandsFreeUpdate cfg now s).2 = false := by
  unfold emitHandsFreeUpdate
  cases hs : s.sessionId <;> cases hc : cfg.hasUpdateCallback <;>
    simp [hs, hc, hasTakeoverUpdate]

/-- Auxiliary: the flush step has the same frame properties. -/
theorem flush_proj (cfg : CtrlConfig) (now : Nat) (s : Ctrl) :
    (flushPendingUpdate cfg now s).1.sessionId = s.sessionId ∧
    (flushPendingUpdate cfg now s).1.sessionUnregistered = s.sessionUnregistered ∧
    (flushPendingUpdate cfg now s).1.userTookOver = s.userTookOver ∧
    (flushPendingUpdate cfg now s).1.state = s.state ∧
    hasTakeoverUpdate (flushPendingUpdate cfg now s).2 = false := by
  unfold flushPendingUpdate
  split_ifs with hf
  · have h := emitHFU_proj cfg now s
    rcases hemit : emitHandsFreeUpdate cfg now s with ⟨s1, e1⟩
    rw [hemit] at h
    simpa using h
  · simp [hasTakeoverUpdate]

/-- Auxiliary: in hands-free state with a registered session and an update
callback, `triggerUserTakeover` flags the takeover, leaves hands-free,
emits the `user-takeover` notification and unregisters. -/
theorem trigger_spec (cfg : CtrlConfig) (now : Nat) (s : Ctrl) (sid : String)
    (hstate : s.state = .handsFree) (hsid : s.sessionId = some sid)
    (hunreg : s.sessionUnregistered = false) (hcb : cfg.hasUpdateCallback = true) :
    (triggerUserTakeover cfg now s).1.userTookOver = true ∧
    (triggerUserTakeover cfg now s).1.state = .running ∧
    hasTakeoverUpdate (triggerUserTakeover cfg now s).2 = true ∧
    Effect.unregisterActive sid false ∈ (triggerUserTakeover cfg now s).2 := by
  unfold triggerUserTakeover
  rw [if_neg (by simp [hstate, hsid])]
  have h := flush_proj cfg now s
  rcases hflush : flushPendingUpdate cfg now s with ⟨s1, e1⟩
  rw [hflush] at h
  simp only at h
  obtain ⟨hid1, hun1, -, -, -⟩ := h
  simp only [stopHandsFreeUpdates, unregisterActiveSession]
  rw [hid1, hsid]
  simp [hun1, hunreg, hcb, hasTakeoverUpdate]

/-- Auxiliary: `triggerUserTakeover` always sets `user_took_over` and
leaves hands-free when its guard passes, with or without a callback. -/
theorem trigger_userTookOver (cfg : CtrlConfig) (now : Nat) (s : Ctrl)
    (hstate : s.state = OverlayState.handsFree) (hsid : s.sessionId ≠ none) :
    (triggerUserTakeover cfg now s).1.userTookOver = true := by
  unfold triggerUserTakeover
  rw [if_neg (by simp [hstate, hsid])]

/-- C2: while in the hands-free state, an input event triggers user
takeover (UserTakeover update emitted, session unregistered from the
active map, `user_took_over` set) if and only if it is neither a
recognized scroll key (shift+up / shift+down) nor a single escape within
the double-escape protocol (an escape that does not complete a double
escape is forwarded without takeover; one that does complete it triggers
takeover before opening the detach dialog). -/
theorem c2_takeover_iff (cfg : CtrlConfig) (now : Nat) (s : Ctrl) (ev : InputEvent)
    (sid : String)
    (hstate : s.state = .handsFree)
    (hto : s.userTookOver = false)
    (hsid : s.sessionId = some sid)
    (hunreg : s.sessionUnregistered = false)
    (hcb : cfg.hasUpdateCallback = true)
    (hclock : s.lastEscapeTime ≤ now) :
    ((handleInput cfg now s ev).1.userTookOver = true ∧
     hasTakeoverUpdate (handleInput cfg now s ev).2 = true ∧
     Effect.unregisterActive sid false ∈ (handleInput cfg now s ev).2)
    ↔ (ev ≠ .shiftUp ∧ ev ≠ .shiftDown ∧
       ¬(ev = .escape ∧ cfg.doubleEscapeThreshold ≤ now - s.lastEscapeTime)) := by
  have hnd : s.state ≠ .detachDialog := by rw [hstate]; decide
  have hne : s.state ≠ .exited := by rw [hstate]; decide
  cases ev with
  | escape =>
      by_cases hdbl : now - s.lastEscapeTime < cfg.doubleEscapeThreshold
      · simp [handleInput, handleDoubleEscape, hnd, hne, hdbl, hstate]
        have ht := trigger_spec cfg now
          { s with state := OverlayState.handsFree, lastEscapeTime := 0 } sid
          rfl (by simpa using hsid) (by simpa using hunreg) hcb
        rcases htr : triggerUserTakeover cfg now
          { s with state := OverlayState.handsFree, lastEscapeTime := 0 } with ⟨s2, e2⟩
        rw [htr] at ht
        obtain ⟨ht1, ht2, ht3, ht4⟩ := ht
        have ht1a : s2.userTookOver = true := ht1
        have ht3a : hasTakeoverUpdate e2 = true := ht3
        have ht4a : Effect.unregisterActive sid false ∈ e2 := ht4
        refine ⟨ht1a, ?_, ht4a⟩
        show hasTakeoverUpdate (e2 ++ [Effect.requestRender]) = true
        rw [hasTakeoverUpdate_append, ht3a]
        rfl
      · simp [handleInput, handleDoubleEscape, hnd, hne, hdbl, hto]
  | shiftUp => simp [handleInput, hnd, hne, hto]
  | shiftDown => simp [handleInput, hnd, hne, hto]
  | up =>
      have ht := trigger_spec cfg now s sid hstate hsid hunreg hcb
      rcases htr : triggerUserTakeover cfg now s with ⟨s2, e2⟩
      rw [htr] at ht
      obtain ⟨ht1, ht2, ht3, ht4⟩ := ht
      have ht1a : s2.userTookOver = true := ht1
      have ht3a : hasTakeoverUpdate e2 = true := ht3
      have ht4a : Effect.unregisterActive sid false ∈ e2 := ht4
      simp [handleInput, hnd, hne, hstate, htr]
      refine ⟨ht1a, ?_, ht4a⟩
      show hasTakeoverUpdate (e2 ++ [Effect.writePty (inputData .up)]) = true
      rw [hasTakeoverUpdate_append, ht3a]
      rfl
  | down =>
      have ht := trigger_spec cfg now s sid hstate hsid hunreg hcb
      rcases htr : triggerUserTakeover cfg now s with ⟨s2, e2⟩
      rw [htr] at ht
      obtain ⟨ht1, ht2, ht3, ht4⟩ := ht
      have ht1a : s2.userTookOver = true := ht1
      have ht3a : hasTakeoverUpdate e2 = true := ht3
      have ht4a : Effect.unregisterActive sid false ∈ e2 := ht4
      simp [handleInput, hnd, hne, hstate, htr]
      refine ⟨ht1a, ?_, ht4a⟩
      show hasTakeoverUpdate (e2 ++ [Effect.writePty (inputData .down)]) = true
      rw [hasTakeoverUpdate_append, ht3a]
      rfl
  | enter =>
      have ht := trigger_spec cfg now s sid hstate hsid hunreg hcb
      rcases htr : triggerUserTakeover cfg now s with ⟨s2, e2⟩
      rw [htr] at ht
      obtain ⟨ht1, ht2, ht3, ht4⟩ := ht
      have ht1a : s2.userTookOver = true := ht1
      have ht3a : hasTakeoverUpdate e2 = true := ht3
      have ht4a : Effect.unregisterActive sid false ∈ e2 := ht4
      simp [handleInput, hnd, hne, hstate, htr]
      refine ⟨ht1a, ?_, ht4a⟩
      show hasTakeoverUpdate (e2 ++ [Effect.writePty (inputData .enter)]) = true
      rw [hasTakeoverUpdate_append, ht3a]
      rfl
  | other d =>
      have ht := trigger_spec cfg now s sid hstate hsid hunreg hcb
      rcases htr : triggerUserTakeover cfg now s with ⟨s2, e2⟩
      rw [htr] at ht
      obtain ⟨ht1, ht2, ht3, ht4⟩ := ht
      have ht1a : s2.userTookOver = true := ht1
      have ht3a : hasTakeoverUpdate e2 = true := ht3
      have ht4a : Effect.unregisterActive sid false ∈ e2 := ht4
      simp [handleInput, hnd, hne, hstate, htr]
      refine ⟨ht1a, ?_, ht4a⟩
      show hasTakeoverUpdate (e2 ++ [Effect.writePty (inputData (.other d))]) = true
      rw [hasTakeoverUpdate_append, ht3a]
      rfl

/-- C2 (witness): typing `a` in a freshly constructed hands-free session
takes over. -/
theorem c2_takeover_witness :
    (handleInput cfgW 10000 ctrlW (.other "a")).1.userTookOver = true ∧
    hasTakeoverUpdate (handleInput cfgW 10000 ctrlW (.other "a")).2 = true ∧
    Effect.unregisterActive "calm-reef" false ∈ (handleInput cfgW 10000 ctrlW (.other "a")).2 :=
  (c2_takeover_iff cfgW 10000 ctrlW (.other "a") "calm-reef" (by decide) (by decide)
    (by decide) (by decide) (by decide) (by decide)).mpr (by decide)

/-- C3: from Running or HandsFree, two escape presses whose times differ
by less than the double-escape threshold (the first not itself completing
an earlier double escape) put the controller in the DetachDialog state;
when it was in HandsFree, user takeover is triggered first
(`user_took_over` is set and the takeover notification emitted). -/
theorem c3_double_escape_dialog (cfg : CtrlConfig) (s : Ctrl) (t1 t2 : Nat)
    (hstate : s.state = .running ∨ s.state = .handsFree)
    (hfirst : s.lastEscapeTime + cfg.doubleEscapeThreshold ≤ t1)
    (horder : t1 ≤ t2)
    (hwin : t2 < t1 + cfg.doubleEscapeThreshold)
    (hsid : s.state = .handsFree → ∃ sid, s.sessionId = some sid) :
    ((handleInput cfg t2 (handleInput cfg t1 s .escape).1 .escape).1.state
        = .detachDialog) ∧
    (s.state = .handsFree →
      (handleInput cfg t2 (handleInput cfg t1 s .escape).1 .escape).1.userTookOver
        = true) := by
  have hnd : s.state ≠ .detachDialog := by
    rcases hstate with h | h <;> rw [h] <;> decide
  have hne : s.state ≠ .exited := by
    rcases hstate with h | h <;> rw [h] <;> decide
  have hdbl1 : ¬ (t1 - s.lastEscapeTime < cfg.doubleEscapeThreshold) := by omega
  have hstep1 : (handleInput cfg t1 s .escape).1 = { s with lastEscapeTime := t1 } := by
    simp [handleInput, if_neg hnd, if_neg hne, handleDoubleEscape, if_neg hdbl1]
  rw [hstep1]
  set s1 : Ctrl := { s with lastEscapeTime := t1 } with hs1
  have hnd1 : s1.state ≠ .detachDialog := by simpa [hs1] using hnd
  have hne1 : s1.state ≠ .exited := by simpa [hs1] using hne
  have hdbl2 : t2 - s1.lastEscapeTime < cfg.doubleEscapeThreshold := by
    simp only [hs1]
    omega
  rcases hstate with hrun | hhf
  · have hnh : ¬ (s1.state = OverlayState.handsFree) := by simp [hs1, hrun]
    constructor
    · simp [handleInput, if_neg hnd1, if_neg hne1, handleDoubleEscape, if_pos hdbl2, hnh]
    · intro hc
      rw [hrun] at hc
      exact absurd hc (by decide)
  · obtain ⟨sid, hsome⟩ := hsid hhf
    constructor
    · simp [handleInput, hnd1, hne1, handleDoubleEscape, hdbl2, hs1, hhf]
    · intro _
      simp [handleInput, hnd1, hne1, handleDoubleEscape, hdbl2, hs1, hhf]
      exact trigger_userTookOver cfg t2 _ rfl (by simp [hsome])

/-- C3 (witness): a concrete double escape in a fresh hands-free session. -/
theorem c3_double_escape_witness :
    (handleInput cfgW 2100 (handleInput cfgW 2000 ctrlW .escape).1 .escape).1.state
      = OverlayState.detachDialog :=
  (c3_double_escape_dialog cfgW ctrlW 2000 2100 (Or.inr (by decide)) (by decide)
    (by decide) (by decide) (fun _ => ⟨"calm-reef", by decide⟩)).1

/-! ### Auxiliary frame lemmas for the finish-once invariant (C5) -/

/-- Auxiliary: `countDone` is additive over concatenation. -/
theorem countDone_append (a b : List Effect) :
    countDone (a ++ b) = countDone a + countDone b := by
  simp [countDone, List.countP_append]

/-- Auxiliary: snapshot effects carry no done callback. -/
theorem countDone_snapshot (cfg : CtrlConfig) (tag : String) :
    countDone (snapshotEffects cfg tag) = 0 := by
  unfold snapshotEffects
  split <;> rfl

/-- Auxiliary: unregistering preserves the finish/timer/disposal frame and
carries no done callback. -/
theorem unreg_frame (s : Ctrl) :
    (unregisterActiveSession s).1.finished = s.finished ∧
    (unregisterActiveSession s).1.countdownArmed = s.countdownArmed ∧
    (unregisterActiveSession s).1.timeoutArmed = s.timeoutArmed ∧
    (unregisterActiveSession s).1.intervalArmed = s.intervalArmed ∧
    (unregisterActiveSession s).1.initialArmed = s.initialArmed ∧
    (unregisterActiveSession s).1.quietArmed = s.quietArmed ∧
    (unregisterActiveSession s).1.ptyDisposed = s.ptyDisposed ∧
    (unregisterActiveSession s).1.handlersDetached = s.handlersDetached ∧
    (unregisterActiveSession s).1.state = s.state ∧
    countDone (unregisterActiveSession s).2 = 0 := by
  unfold unregisterActiveSession
  cases hs : s.sessionId
  · simp [countDone]
  · by_cases hu : s.sessionUnregistered = true <;> simp [hu, countDone]

/-- Auxiliary: a hands-free emission preserves the finish/timer/disposal
frame and carries no done callback. -/
theorem emitHFU_frame (cfg : CtrlConfig) (now : Nat) (s : Ctrl) :
    (emitHandsFreeUpdate cfg now s).1.finished = s.finished ∧
    (emitHandsFreeUpdate cfg now s).1.countdownArmed = s.countdownArmed ∧
    (emitHandsFreeUpdate cfg now s).1.timeoutArmed = s.timeoutArmed ∧
    (emitHandsFreeUpdate cfg now s).1.intervalArmed = s.intervalArmed ∧
    (emitHandsFreeUpdate cfg now s).1.initialArmed = s.initialArmed ∧
    (emitHandsFreeUpdate cfg now s).1.quietArmed = s.quietArmed ∧
    (emitHandsFreeUpdate cfg now s).1.ptyDisposed = s.ptyDisposed ∧
    (emitHandsFreeUpdate cfg now s).1.handlersDetached = s.handlersDetached ∧
    (emitHandsFreeUpdate cfg now s).1.state = s.state ∧
    (emitHandsFreeUpdate cfg now s).1.sessionId = s.sessionId ∧
    countDone (emitHandsFreeUpdate cfg now s).2 = 0 := by
  unfold emitHandsFreeUpdate
  cases hs : s.sessionId <;> cases hc : cfg.hasUpdateCallback <;>
    simp [hs, hc, countDone]

/-- Auxiliary: the flush step preserves the same frame and carries no done
callback. -/
theorem flush_frame (cfg : CtrlConfig) (now : Nat) (s : Ctrl) :
    (flushPendingUpdate cfg now s).1.finished = s.finished ∧
    (flushPendingUpdate cfg now s).1.countdownArmed = s.countdownArmed ∧
    (flushPendingUpdate cfg now s).1.timeoutArmed = s.timeoutArmed ∧
    (flushPendingUpdate cfg now s).1.intervalArmed = s.intervalArmed ∧
    (flushPendingUpdate cfg now s).1.initialArmed = s.initialArmed ∧
    (flushPendingUpdate cfg now s).1.quietArmed = s.quietArmed ∧
    (flushPendingUpdate cfg now s).1.ptyDisposed = s.ptyDisposed ∧
    (flushPendingUpdate cfg now s).1.handlersDetached = s.handlersDetached ∧
    (flushPendingUpdate cfg now s).1.state = s.state ∧
    (flushPendingUpdate cfg now s).1.sessionId = s.sessionId ∧
    countDone (flushPendingUpdate cfg now s).2 = 0 := by
  unfold flushPendingUpdate
  split
  · have h := emitHFU_frame cfg now s
    rcases hemit : emitHandsFreeUpdate cfg now s with ⟨s1, e1⟩
    rw [hemit] at h
    simpa using h
  · simp [countDone]

/-- Auxiliary: `finishWithExit` is a no-op when already finished;
otherwise it sets `finished`, stops every timer, disposes the pty and
emits exactly one done callback. -/
theorem finishWithExit_spec (cfg : CtrlConfig) (s : Ctrl) :
    (s.finished = true → finishWithExit cfg s = (s, [])) ∧
    (s.finished = false →
      (finishWithExit cfg s).1.finished = true ∧
      allTimersOff (finishWithExit cfg s).1 = true ∧
      ((finishWithExit cfg s).1.ptyDisposed = true ∨
        (finishWithExit cfg s).1.handlersDetached = true) ∧
      countDone (finishWithExit cfg s).2 = 1) := by
  constructor
  · intro h
    unfold finishWithExit
    rw [if_pos h]
  · intro h
    unfold finishWithExit
    rw [if_neg (by simp [h])]
    have hU := unreg_frame
      (stopHandsFreeUpdates (stopTimeout (stopCountdown { s with finished := true })))
    rcases hu : unregisterActiveSession
        (stopHandsFreeUpdates (stopTimeout (stopCountdown { s with finished := true })))
      with ⟨s2, e1⟩
    rw [hu] at hU
    simp only [stopHandsFreeUpdates, stopTimeout, stopCountdown] at hU
    simp only [hu]
    refine ⟨hU.1, ?_, Or.inl (by simp), ?_⟩
    · simp [allTimersOff, hU.2.1, hU.2.2.1, hU.2.2.2.1, hU.2.2.2.2.1, hU.2.2.2.2.2.1]
    · rw [countDone_append, countDone_append, countDone_snapshot,
        hU.2.2.2.2.2.2.2.2.2]
      rfl

/-- Auxiliary: `finishWithBackground` is a no-op when already finished;
otherwise it sets `finished`, stops every timer, detaches the handlers and
emits exactly one done callback. -/
theorem finishWithBackground_spec (cfg : CtrlConfig) (s : Ctrl) :
    (s.finished = true → finishWithBackground cfg s = (s, [])) ∧
    (s.finished = false →
      (finishWithBackground cfg s).1.finished = true ∧
      allTimersOff (finishWithBackground cfg s).1 = true ∧
      ((finishWithBackground cfg s).1.ptyDisposed = true ∨
        (finishWithBackground cfg s).1.handlersDetached = true) ∧
      countDone (finishWithBackground cfg s).2 = 1) := by
  constructor
  · intro h
    unfold finishWithBackground
    rw [if_pos h]
  · intro h
    unfold finishWithBackground
    rw [if_neg (by simp [h])]
    have hU := unreg_frame
      (stopHandsFreeUpdates (stopTimeout (stopCountdown { s with finished := true })))
    rcases hu : unregisterActiveSession
        (stopHandsFreeUpdates (stopTimeout (stopCountdown { s with finished := true })))
      with ⟨s2, e1⟩
    rw [hu] at hU
    simp only [stopHandsFreeUpdates, stopTimeout, stopCountdown] at hU
    simp only [hu]
    refine ⟨hU.1, ?_, Or.inr (by simp), ?_⟩
    · simp [allTimersOff, hU.2.1, hU.2.2.1, hU.2.2.2.1, hU.2.2.2.2.1, hU.2.2.2.2.2.1]
    · rw [countDone_append, countDone_append, countDone_snapshot,
        hU.2.2.2.2.2.2.2.2.2]
      rfl

/-- Auxiliary: `finishWithKill` is a no-op when already finished;
otherwise it sets `finished`, stops every timer, disposes the pty and
emits exactly one done callback. -/
theorem finishWithKill_spec (cfg : CtrlConfig) (s : Ctrl) :
    (s.finished = true → finishWithKill cfg s = (s, [])) ∧
    (s.finished = false →
      (finishWithKill cfg s).1.finished = true ∧
      allTimersOff (finishWithKill cfg s).1 = true ∧
      ((finishWithKill cfg s).1.ptyDisposed = true ∨
        (finishWithKill cfg s).1.handlersDetached = true) ∧
      countDone (finishWithKill cfg s).2 = 1) := by
  constructor
  · intro h
    unfold finishWithKill
    rw [if_pos h]
  · intro h
    unfold finishWithKill
    rw [if_neg (by simp [h])]
    have hU := unreg_frame
      (stopHandsFreeUpdates (stopTimeout (stopCountdown { s with finished := true })))
    rcases hu : unregisterActiveSession
        (stopHandsFreeUpdates (stopTimeout (stopCountdown { s with finished := true })))
      with ⟨s2, e1⟩
    rw [hu] at hU
    simp only [stopHandsFreeUpdates, stopTimeout, stopCountdown] at hU
    simp only [hu]
    refine ⟨hU.1, ?_, Or.inl (by simp), ?_⟩
    · simp [allTimersOff, hU.2.1, hU.2.2.1, hU.2.2.2.1, hU.2.2.2.2.1, hU.2.2.2.2.2.1]
    · rw [countDone_append, countDone_append, countDone_snapshot,
        hU.2.2.2.2.2.2.2.2.2]
      rfl

/-- Auxiliary: `unreg_frame` phrased on a destructured result pair. -/
theorem unreg_frame2 (t s' : Ctrl) (es : List Effect)
    (h : unregisterActiveSession t = (s', es)) :
    s'.finished = t.finished ∧
    s'.countdownArmed = t.countdownArmed ∧
    s'.timeoutArmed = t.timeoutArmed ∧
    s'.intervalArmed = t.intervalArmed ∧
    s'.initialArmed = t.initialArmed ∧
    s'.quietArmed = t.quietArmed ∧
    s'.ptyDisposed = t.ptyDisposed ∧
    s'.handlersDetached = t.handlersDetached ∧
    s'.state = t.state ∧
    countDone es = 0 := by
  have h0 := unreg_frame t
  rw [h] at h0
  exact h0

/-- Auxiliary: `flush_frame` phrased on a destructured result pair. -/
theorem flush_frame2 (cfg : CtrlConfig) (now : Nat) (t s' : Ctrl) (es : List Effect)
    (h : flushPendingUpdate cfg now t = (s', es)) :
    s'.finished = t.finished ∧
    s'.countdownArmed = t.countdownArmed ∧
    s'.timeoutArmed = t.timeoutArmed ∧
    s'.intervalArmed = t.intervalArmed ∧
    s'.initialArmed = t.initialArmed ∧
    s'.quietArmed = t.quietArmed ∧
    s'.ptyDisposed = t.ptyDisposed ∧
    s'.handlersDetached = t.handlersDetached ∧
    s'.state = t.state ∧
    s'.sessionId = t.sessionId ∧
    countDone es = 0 := by
  have h0 := flush_frame cfg now t
  rw [h] at h0
  exact h0

/-- Auxiliary: `finishWithTimeout` is a no-op when already finished;
otherwise it sets `finished`, stops every timer, disposes the pty and
emits exactly one done callback (the pre-kill flush emits only status
updates). -/
theorem finishWithTimeout_spec (cfg : CtrlConfig) (now : Nat) (s : Ctrl) :
    (s.finished = true → finishWithTimeout cfg now s = (s, [])) ∧
    (s.finished = false →
      (finishWithTimeout cfg now s).1.finished = true ∧
      allTimersOff (finishWithTimeout cfg now s).1 = true ∧
      ((finishWithTimeout cfg now s).1.ptyDisposed = true ∨
        (finishWithTimeout cfg now s).1.handlersDetached = true) ∧
      countDone (finishWithTimeout cfg now s).2 = 1) := by
  constructor
  · intro h
    unfold finishWithTimeout
    rw [if_pos h]
  · intro h
    unfold finishWithTimeout
    rw [if_neg (by simp [h])]
    dsimp only
    split
    · rename_i val hst hc hsid
      rcases hfl : flushPendingUpdate cfg now
          (stopTimeout (stopCountdown { s with finished := true })) with ⟨sa, ea⟩
      have hF := flush_frame2 cfg now _ _ _ hfl
      simp only [stopTimeout, stopCountdown] at hF
      dsimp only
      rcases hu : unregisterActiveSession (stopHandsFreeUpdates sa) with ⟨s4, es2⟩
      have hU := unreg_frame2 _ _ _ hu
      simp only [stopHandsFreeUpdates] at hU
      dsimp only
      refine ⟨?_, ?_, Or.inl (by simp), ?_⟩
      · show s4.finished = true
        rw [hU.1, hF.1]
      · show allTimersOff { { s4 with timedOut := true } with ptyDisposed := true } = true
        simp [allTimersOff, hU.2.1, hU.2.2.1, hU.2.2.2.1, hU.2.2.2.2.1,
          hU.2.2.2.2.2.1, hF.2.1, hF.2.2.1]
      · cases hsa : sa.sessionId <;>
          (simp only [countDone_append, countDone_snapshot,
            hF.2.2.2.2.2.2.2.2.2.2, hU.2.2.2.2.2.2.2.2.2]; rfl)
    · rename_i hnb
      rcases hu : unregisterActiveSession (stopHandsFreeUpdates
          (stopTimeout (stopCountdown { s with finished := true }))) with ⟨s4, es2⟩
      have hU := unreg_frame2 _ _ _ hu
      simp only [stopHandsFreeUpdates, stopTimeout, stopCountdown] at hU
      dsimp only
      refine ⟨?_, ?_, Or.inl (by simp), ?_⟩
      · show s4.finished = true
        rw [hU.1]
      · show allTimersOff { { s4 with timedOut := true } with ptyDisposed := true } = true
        simp [allTimersOff, hU.2.1, hU.2.2.1, hU.2.2.2.1, hU.2.2.2.2.1,
          hU.2.2.2.2.2.1]
      · simp only [countDone_append, countDone_snapshot, hU.2.2.2.2.2.2.2.2.2]
        rfl

/-- Auxiliary: a Boolean that forces a false Boolean is itself false. -/
theorem bool_imp_false {a b : Bool} (h : a = true → b = true) (hb : b = false) :
    a = false := by
  cases ha : a
  · rfl
  · rw [h ha] at hb
    exact hb

/-- Auxiliary: the invariant unpacked at a finished state. -/
theorem inv_unarmed (s : Ctrl) (hi : ctrlInv s) (hf : s.finished = true) :
    s.countdownArmed = false ∧ s.timeoutArmed = false ∧ s.intervalArmed = false ∧
    s.initialArmed = false ∧ s.quietArmed = false ∧
    (s.handlersDetached || s.ptyDisposed) = true := by
  have h := hi hf
  have hA := h.1
  simp only [allTimersOff, Bool.and_eq_true, Bool.not_eq_true'] at hA
  refine ⟨hA.1.1.1.1, hA.1.1.1.2, hA.1.1.2, hA.1.2, hA.2, ?_⟩
  rcases h.2 with hp | hd
  · simp [hp]
  · simp [hd]

/-- Auxiliary: the invariant transfers along a frame of field equalities. -/
theorem ctrlInv_of_frame (s s' : Ctrl)
    (h1 : s'.finished = s.finished) (h2 : s'.countdownArmed = s.countdownArmed)
    (h3 : s'.timeoutArmed = s.timeoutArmed) (h4 : s'.intervalArmed = s.intervalArmed)
    (h5 : s'.initialArmed = s.initialArmed) (h6 : s'.quietArmed = s.quietArmed)
    (h7 : s'.ptyDisposed = s.ptyDisposed) (h8 : s'.handlersDetached = s.handlersDetached)
    (hi : ctrlInv s) : ctrlInv s' := by
  intro hf
  rw [h1] at hf
  have h := hi hf
  constructor
  · have he : allTimersOff s' = allTimersOff s := by
      simp [allTimersOff, h2, h3, h4, h5, h6]
    rw [he]
    exact h.1
  · rw [h7, h8]
    exact h.2

/-- Auxiliary: any of the four `finishWith*` functions satisfies the
one-step finish-once contract. -/
theorem finisher_step (s : Ctrl) (p : Ctrl × List Effect)
    (htrue : s.finished = true → p = (s, []))
    (hfalse : s.finished = false →
      p.1.finished = true ∧ allTimersOff p.1 = true ∧
      (p.1.ptyDisposed = true ∨ p.1.handlersDetached = true) ∧ countDone p.2 = 1) :
    (s.finished = true → p.1.finished = true) ∧
    countDone p.2 = (if s.finished = false ∧ p.1.finished = true then 1 else 0) ∧
    (ctrlInv s → ctrlInv p.1) := by
  cases hf : s.finished
  · have h := hfalse hf
    refine ⟨by simp [hf], ?_, fun _ _ => ⟨h.2.1, h.2.2.1⟩⟩
    rw [h.1]
    simp [hf, h.2.2.2]
  · have h := htrue hf
    rw [h]
    exact ⟨fun _ => hf, by simp [hf, countDone], fun hi => hi⟩

/-- Auxiliary: `setUpdateInterval` only touches the interval value and its
restart counter. -/
theorem setUI_frame (v : Int) (s : Ctrl) :
    (setUpdateInterval v s).finished = s.finished ∧
    (setUpdateInterval v s).countdownArmed = s.countdownArmed ∧
    (setUpdateInterval v s).timeoutArmed = s.timeoutArmed ∧
    (setUpdateInterval v s).intervalArmed = s.intervalArmed ∧
    (setUpdateInterval v s).initialArmed = s.initialArmed ∧
    (setUpdateInterval v s).quietArmed = s.quietArmed ∧
    (setUpdateInterval v s).ptyDisposed = s.ptyDisposed ∧
    (setUpdateInterval v s).handlersDetached = s.handlersDetached := by
  unfold setUpdateInterval
  dsimp only
  split
  · simp
  · split <;> simp

/-- Auxiliary: `setQuietThreshold` only touches the threshold value. -/
theorem setQT_frame (v : Int) (s : Ctrl) :
    (setQuietThreshold v s).finished = s.finished ∧
    (setQuietThreshold v s).countdownArmed = s.countdownArmed ∧
    (setQuietThreshold v s).timeoutArmed = s.timeoutArmed ∧
    (setQuietThreshold v s).intervalArmed = s.intervalArmed ∧
    (setQuietThreshold v s).initialArmed = s.initialArmed ∧
    (setQuietThreshold v s).quietArmed = s.quietArmed ∧
    (setQuietThreshold v s).ptyDisposed = s.ptyDisposed ∧
    (setQuietThreshold v s).handlersDetached = s.handlersDetached := by
  unfold setQuietThreshold
  dsimp only
  split <;> simp

/-- Auxiliary: the data callback never finishes, never calls done, and
preserves the invariant (it is guarded once the pty is disposed or the
handlers detached). -/
theorem onData_spec (cfg : CtrlConfig) (now : Nat) (s : Ctrl) (d : String) :
    (onDataHandler cfg now s d).1.finished = s.finished ∧
    countDone (onDataHandler cfg now s d).2 = 0 ∧
    (ctrlInv s → ctrlInv (onDataHandler cfg now s d).1) := by
  unfold onDataHandler
  split
  · exact ⟨rfl, rfl, fun hi => hi⟩
  · rename_i hg
    dsimp only
    split
    · refine ⟨rfl, rfl, fun hi hf => ?_⟩
      exfalso
      exact hg ((inv_unarmed s hi hf).2.2.2.2.2)
    · exact ⟨rfl, rfl, fun hi => hi⟩

/-- Auxiliary: the exit callback never finishes (it only arms the exit
countdown), never calls done, and preserves the invariant. -/
theorem onExit_spec (cfg : CtrlConfig) (now : Nat) (s : Ctrl) (ec sg : Option Int) :
    (onExitHandler cfg now s ec sg).1.finished = s.finished ∧
    countDone (onExitHandler cfg now s ec sg).2 = 0 ∧
    (ctrlInv s → ctrlInv (onExitHandler cfg now s ec sg).1) := by
  unfold onExitHandler
  split
  · exact ⟨rfl, rfl, fun hi => hi⟩
  · rename_i hg
    dsimp only
    split
    · refine ⟨rfl, rfl, fun hi hf => ?_⟩
      exfalso
      exact hg ((inv_unarmed s hi hf).2.2.2.2.2)
    · rename_i hf0
      split
      · rename_i val hst hc hsid
        rcases hfl : flushPendingUpdate cfg now
            (stopTimeout { s with exitCode := ec, signal := sg }) with ⟨sa, ea⟩
        have hF := flush_frame2 cfg now _ _ _ hfl
        simp only [stopTimeout] at hF
        dsimp only
        rcases hu : unregisterActiveSession sa with ⟨sb, eb⟩
        have hB := unreg_frame2 _ _ _ hu
        dsimp only
        refine ⟨?_, ?_, fun hi hf => ?_⟩
        · show sb.finished = s.finished
          rw [hB.1, hF.1]
        · cases hsa : sa.sessionId <;>
            (simp only [countDone_append, hF.2.2.2.2.2.2.2.2.2.2,
              hB.2.2.2.2.2.2.2.2.2]; rfl)
        · exfalso
          apply hf0
          show s.finished = true
          rw [← hF.1, ← hB.1]
          exact hf
      · rename_i hnb
        refine ⟨rfl, rfl, fun hi hf => ?_⟩
        exact absurd hf hf0

/-- Auxiliary: a user takeover never finishes, never calls done, never
arms a timer, and leaves the disposal flags alone. -/
theorem trigger_frame (cfg : CtrlConfig) (now : Nat) (s : Ctrl) :
    (triggerUserTakeover cfg now s).1.finished = s.finished ∧
    (triggerUserTakeover cfg now s).1.countdownArmed = s.countdownArmed ∧
    (triggerUserTakeover cfg now s).1.timeoutArmed = s.timeoutArmed ∧
    ((triggerUserTakeover cfg now s).1.intervalArmed = true → s.intervalArmed = true) ∧
    ((triggerUserTakeover cfg now s).1.initialArmed = true → s.initialArmed = true) ∧
    ((triggerUserTakeover cfg now s).1.quietArmed = true → s.quietArmed = true) ∧
    (triggerUserTakeover cfg now s).1.ptyDisposed = s.ptyDisposed ∧
    (triggerUserTakeover cfg now s).1.handlersDetached = s.handlersDetached ∧
    countDone (triggerUserTakeover cfg now s).2 = 0 := by
  unfold triggerUserTakeover
  split
  · exact ⟨rfl, rfl, rfl, fun h => h, fun h => h, fun h => h, rfl, rfl, rfl⟩
  · dsimp only
    rcases hfl : flushPendingUpdate cfg now s with ⟨sa, ea⟩
    have hF := flush_frame2 cfg now _ _ _ hfl
    dsimp only
    rcases hu : unregisterActiveSession (stopHandsFreeUpdates sa) with ⟨sb, eb⟩
    have hB := unreg_frame2 _ _ _ hu
    simp only [stopHandsFreeUpdates] at hB
    dsimp only
    refine ⟨?_, ?_, ?_, ?_, ?_, ?_, ?_, ?_, ?_⟩
    · show sb.finished = s.finished
      rw [hB.1, hF.1]
    · show sb.countdownArmed = s.countdownArmed
      rw [hB.2.1, hF.2.1]
    · show sb.timeoutArmed = s.timeoutArmed
      rw [hB.2.2.1, hF.2.2.1]
    · intro hx
      exact absurd (hB.2.2.2.1 ▸ hx) (by simp)
    · intro hx
      exact absurd (hB.2.2.2.2.1 ▸ hx) (by simp)
    · intro hx
      exact absurd (hB.2.2.2.2.2.1 ▸ hx) (by simp)
    · show sb.ptyDisposed = s.ptyDisposed
      rw [hB.2.2.2.2.2.2.1, hF.2.2.2.2.2.2.1]
    · show sb.handlersDetached = s.handlersDetached
      rw [hB.2.2.2.2.2.2.2.1, hF.2.2.2.2.2.2.2.1]
    · cases hc : cfg.hasUpdateCallback <;> cases hsb : sb.sessionId <;>
        (simp only [hc, hsb, countDone_append, hF.2.2.2.2.2.2.2.2.2.2,
          hB.2.2.2.2.2.2.2.2.2]; rfl)

/-- Auxiliary: the countdown tick finishes at most once and keeps the
invariant. -/
theorem countdownTick_spec (cfg : CtrlConfig) (s : Ctrl) :
    (s.finished = true → (countdownTickHandler cfg s).1.finished = true) ∧
    countDone (countdownTickHandler cfg s).2 =
      (if s.finished = false ∧ (countdownTickHandler cfg s).1.finished = true
        then 1 else 0) ∧
    (ctrlInv s → ctrlInv (countdownTickHandler cfg s).1) := by
  unfold countdownTickHandler
  split
  · dsimp only
    split
    · exact finisher_step { s with exitCountdown := s.exitCountdown - 1 }
        (finishWithExit cfg { s with exitCountdown := s.exitCountdown - 1 })
        (finishWithExit_spec cfg _).1 (finishWithExit_spec cfg _).2
    · refine ⟨fun hf => hf, ?_, fun hi => hi⟩
      cases hf : s.finished <;> simp [hf, countDone]
  · refine ⟨fun hf => hf, ?_, fun hi => hi⟩
    cases hf : s.finished <;> simp [hf, countDone]

/-- Auxiliary: the timeout timer finishes at most once and keeps the
invariant. -/
theorem timeoutFire_spec (cfg : CtrlConfig) (now : Nat) (s : Ctrl) :
    (s.finished = true → (timeoutFireHandler cfg now s).1.finished = true) ∧
    countDone (timeoutFireHandler cfg now s).2 =
      (if s.finished = false ∧ (timeoutFireHandler cfg now s).1.finished = true
        then 1 else 0) ∧
    (ctrlInv s → ctrlInv (timeoutFireHandler cfg now s).1) := by
  unfold timeoutFireHandler
  split
  · exact finisher_step s (finishWithTimeout cfg now s)
      (finishWithTimeout_spec cfg now s).1 (finishWithTimeout_spec cfg now s).2
  · refine ⟨fun hf => hf, ?_, fun hi => hi⟩
    cases hf : s.finished <;> simp [hf, countDone]

/-- Auxiliary: `emitHFU_frame` phrased on a destructured result pair. -/
theorem emitHFU_frame2 (cfg : CtrlConfig) (now : Nat) (t s' : Ctrl) (es : List Effect)
    (h : emitHandsFreeUpdate cfg now t = (s', es)) :
    s'.finished = t.finished ∧
    s'.countdownArmed = t.countdownArmed ∧
    s'.timeoutArmed = t.timeoutArmed ∧
    s'.intervalArmed = t.intervalArmed ∧
    s'.initialArmed = t.initialArmed ∧
    s'.quietArmed = t.quietArmed ∧
    s'.ptyDisposed = t.ptyDisposed ∧
    s'.handlersDetached = t.handlersDetached ∧
    s'.state = t.state ∧
    s'.sessionId = t.sessionId ∧
    countDone es = 0 := by
  have h0 := emitHFU_frame cfg now t
  rw [h] at h0
  exact h0

/-- Auxiliary: the periodic interval tick never finishes, never calls
done, and keeps the invariant (it cannot fire once the timers are off). -/
theorem intervalTick_spec (cfg : CtrlConfig) (now : Nat) (s : Ctrl) :
    (intervalTickHandler cfg now s).1.finished = s.finished ∧
    countDone (intervalTickHandler cfg now s).2 = 0 ∧
    (ctrlInv s → ctrlInv (intervalTickHandler cfg now s).1) := by
  unfold intervalTickHandler
  split
  · rename_i ha
    split
    · split
      · split
        · rcases he : emitHandsFreeUpdate cfg now s with ⟨s1, es⟩
          have hE := emitHFU_frame2 cfg now _ _ _ he
          dsimp only
          exact ⟨hE.1, hE.2.2.2.2.2.2.2.2.2.2,
            fun hi hf => absurd ((inv_unarmed s hi (by rw [← hE.1]; exact hf)).2.2.1)
              (by simp [ha])⟩
        · exact ⟨rfl, rfl, fun hi => hi⟩
      · rcases he : emitHandsFreeUpdate cfg now s with ⟨s1, es⟩
        have hE := emitHFU_frame2 cfg now _ _ _ he
        dsimp only
        exact ⟨hE.1, hE.2.2.2.2.2.2.2.2.2.2,
          fun hi hf => absurd ((inv_unarmed s hi (by rw [← hE.1]; exact hf)).2.2.1)
            (by simp [ha])⟩
    · exact ⟨rfl, rfl, fun hi => hi⟩
  · exact ⟨rfl, rfl, fun hi => hi⟩

/-- Auxiliary: the initial-delay fire never finishes, never calls done,
and keeps the invariant. -/
theorem initialFire_spec (cfg : CtrlConfig) (now : Nat) (s : Ctrl) :
    (initialFireHandler cfg now s).1.finished = s.finished ∧
    countDone (initialFireHandler cfg now s).2 = 0 ∧
    (ctrlInv s → ctrlInv (initialFireHandler cfg now s).1) := by
  unfold initialFireHandler
  split
  · rename_i ha
    dsimp only
    split
    · rcases he : emitHandsFreeUpdate cfg now { s with initialArmed := false }
        with ⟨s1, es⟩
      have hE := emitHFU_frame2 cfg now _ _ _ he
      dsimp only
      exact ⟨hE.1, hE.2.2.2.2.2.2.2.2.2.2,
        fun hi hf => absurd ((inv_unarmed s hi (by rw [hE.1] at hf; exact hf)).2.2.2.1)
          (by simp [ha])⟩
    · refine ⟨rfl, rfl, fun hi hf => ?_⟩
      have h := inv_unarmed s hi hf
      exact ⟨by simp [allTimersOff, h.1, h.2.1, h.2.2.1, h.2.2.2.2.1], (hi hf).2⟩
  · exact ⟨rfl, rfl, fun hi => hi⟩

/-- Auxiliary: the quiet-window fire never finishes, never calls done,
and keeps the invariant. -/
theorem quietFire_spec (cfg : CtrlConfig) (now : Nat) (s : Ctrl) :
    (quietFireHandler cfg now s).1.finished = s.finished ∧
    countDone (quietFireHandler cfg now s).2 = 0 ∧
    (ctrlInv s → ctrlInv (quietFireHandler cfg now s).1) := by
  unfold quietFireHandler
  split
  · rename_i ha
    dsimp only
    split
    · rcases he : emitHandsFreeUpdate cfg now { s with quietArmed := false }
        with ⟨s1, es⟩
      have hE := emitHFU_frame2 cfg now _ _ _ he
      dsimp only
      exact ⟨hE.1, hE.2.2.2.2.2.2.2.2.2.2,
        fun hi hf => absurd ((inv_unarmed s hi (by rw [hE.1] at hf; exact hf)).2.2.2.2.1)
          (by simp [ha])⟩
    · refine ⟨rfl, rfl, fun hi hf => ?_⟩
      have h := inv_unarmed s hi hf
      exact ⟨by simp [allTimersOff, h.1, h.2.1, h.2.2.1, h.2.2.2.1], (hi hf).2⟩
  · exact ⟨rfl, rfl, fun hi => hi⟩

/-- Auxiliary: `trigger_frame` phrased on a destructured result pair. -/
theorem trigger_frame2 (cfg : CtrlConfig) (now : Nat) (t s2 : Ctrl) (e1 : List Effect)
    (h : triggerUserTakeover cfg now t = (s2, e1)) :
    s2.finished = t.finished ∧
    s2.countdownArmed = t.countdownArmed ∧
    s2.timeoutArmed = t.timeoutArmed ∧
    (s2.intervalArmed = true → t.intervalArmed = true) ∧
    (s2.initialArmed = true → t.initialArmed = true) ∧
    (s2.quietArmed = true → t.quietArmed = true) ∧
    s2.ptyDisposed = t.ptyDisposed ∧
    s2.handlersDetached = t.handlersDetached ∧
    countDone e1 = 0 := by
  have h0 := trigger_frame cfg now t
  rw [h] at h0
  exact h0

/-- Auxiliary: a takeover fired from a finished invariant state keeps all
timers off and the disposal flag. -/
theorem trigger_step (cfg : CtrlConfig) (now : Nat) (t s2 : Ctrl) (e1 : List Effect)
    (ht : triggerUserTakeover cfg now t = (s2, e1))
    (hi : ctrlInv t) (hf : s2.finished = true) :
    allTimersOff s2 = true ∧ (s2.ptyDisposed = true ∨ s2.handlersDetached = true) := by
  have hT := trigger_frame2 cfg now _ _ _ ht
  have hfs : t.finished = true := by rw [← hT.1]; exact hf
  have h := inv_unarmed t hi hfs
  have c3 := bool_imp_false hT.2.2.2.1 h.2.2.1
  have c4 := bool_imp_false hT.2.2.2.2.1 h.2.2.2.1
  have c5 := bool_imp_false hT.2.2.2.2.2.1 h.2.2.2.2.1
  refine ⟨by simp [allTimersOff, hT.2.1, hT.2.2.1, h.1, h.2.1, c3, c4, c5], ?_⟩
  rcases (hi hfs).2 with hp | hd
  · exact Or.inl (by rw [hT.2.2.2.2.2.2.1]; exact hp)
  · exact Or.inr (by rw [hT.2.2.2.2.2.2.2.1]; exact hd)

/-- Auxiliary: user input finishes at most once (only via the dialog's
kill/background choices or a keypress on the exited screen) and keeps the
invariant. -/
theorem handleInput_spec (cfg : CtrlConfig) (now : Nat) (s : Ctrl) (ev : InputEvent) :
    (s.finished = true → (handleInput cfg now s ev).1.finished = true) ∧
    countDone (handleInput cfg now s ev).2 =
      (if s.finished = false ∧ (handleInput cfg now s ev).1.finished = true
        then 1 else 0) ∧
    (ctrlInv s → ctrlInv (handleInput cfg now s ev).1) := by
  unfold handleInput
  split
  · unfold handleDialogInput
    cases ev
    · exact ⟨fun hf => hf, by cases hf : s.finished <;> simp [hf, countDone],
        fun hi => hi⟩
    · exact ⟨fun hf => hf, by cases hf : s.finished <;> simp [hf, countDone],
        fun hi => hi⟩
    · exact ⟨fun hf => hf, by cases hf : s.finished <;> simp [hf, countDone],
        fun hi => hi⟩
    · exact ⟨fun hf => hf, by cases hf : s.finished <;> simp [hf, countDone],
        fun hi => hi⟩
    · exact ⟨fun hf => hf, by cases hf : s.finished <;> simp [hf, countDone],
        fun hi => hi⟩
    · dsimp only
      cases hdsel : s.dialogSelection
      · exact finisher_step s (finishWithKill cfg s)
          (finishWithKill_spec cfg s).1 (finishWithKill_spec cfg s).2
      · exact finisher_step s (finishWithBackground cfg s)
          (finishWithBackground_spec cfg s).1 (finishWithBackground_spec cfg s).2
      · exact ⟨fun hf => hf, by cases hf : s.finished <;> simp [hf, countDone],
          fun hi => hi⟩
    · exact ⟨fun hf => hf, by cases hf : s.finished <;> simp [hf, countDone],
        fun hi => hi⟩
  · split
    · split
      · exact finisher_step s (finishWithExit cfg s)
          (finishWithExit_spec cfg s).1 (finishWithExit_spec cfg s).2
      · exact ⟨fun hf => hf, by cases hf : s.finished <;> simp [hf, countDone],
          fun hi => hi⟩
    · cases ev
      · unfold handleDoubleEscape
        dsimp only
        split
        · dsimp only
          rw [if_pos rfl]
          split
          · rcases ht : triggerUserTakeover cfg now { s with lastEscapeTime := 0 }
              with ⟨s2, e1⟩
            have hT := trigger_frame2 cfg now _ _ _ ht
            dsimp only
            refine ⟨?_, ?_, ?_⟩
            · intro hf
              show s2.finished = true
              rw [hT.1]
              exact hf
            · rw [countDone_append, hT.2.2.2.2.2.2.2.2]
              cases hf : s.finished <;> simp [hf, hT.1, countDone]
            · intro hi hf
              have h2 := trigger_step cfg now _ s2 e1 ht hi
                (show s2.finished = true from hf)
              exact ⟨h2.1, h2.2⟩
          · exact ⟨fun hf => hf, by cases hf : s.finished <;> simp [hf, countDone],
              fun hi => hi⟩
        · exact ⟨fun hf => hf, by cases hf : s.finished <;> simp [hf, countDone],
            fun hi => hi⟩
      · exact ⟨fun hf => hf, by cases hf : s.finished <;> simp [hf, countDone],
          fun hi => hi⟩
      · exact ⟨fun hf => hf, by cases hf : s.finished <;> simp [hf, countDone],
          fun hi => hi⟩
      all_goals
        dsimp only
        split
        · rcases ht : triggerUserTakeover cfg now s with ⟨s2, e1⟩
          have hT := trigger_frame2 cfg now _ _ _ ht
          dsimp only
          refine ⟨?_, ?_, ?_⟩
          · intro hf
            show s2.finished = true
            rw [hT.1]
            exact hf
          · rw [countDone_append, hT.2.2.2.2.2.2.2.2]
            cases hf : s.finished <;> simp [hf, hT.1, countDone]
          · intro hi hf
            exact trigger_step cfg now _ _ _ ht hi hf
        · exact ⟨fun hf => hf, by cases hf : s.finished <;> simp [hf, countDone],
            fun hi => hi⟩

/-- Auxiliary: a handler that preserves `finished` and emits no done
callback satisfies the one-step finish-once contract. -/
theorem frame_to_step (s : Ctrl) (p : Ctrl × List Effect)
    (h1 : p.1.finished = s.finished) (h2 : countDone p.2 = 0)
    (h3 : ctrlInv s → ctrlInv p.1) :
    (s.finished = true → p.1.finished = true) ∧
    countDone p.2 = (if s.finished = false ∧ p.1.finished = true then 1 else 0) ∧
    (ctrlInv s → ctrlInv p.1) := by
  refine ⟨fun hf => by rw [h1]; exact hf, ?_, h3⟩
  rw [h2, h1]
  cases hf : s.finished <;> simp [hf]

/-- Auxiliary: every dispatched event finishes at most once, calls done
exactly on the finishing step, and keeps the invariant. -/
theorem stepEv_spec (cfg : CtrlConfig) (s : Ctrl) (te : Nat × Event) :
    (s.finished = true → (stepEv cfg s te).1.finished = true) ∧
    countDone (stepEv cfg s te).2 =
      (if s.finished = false ∧ (stepEv cfg s te).1.finished = true then 1 else 0) ∧
    (ctrlInv s → ctrlInv (stepEv cfg s te).1) := by
  rcases te with ⟨now, ev⟩
  cases ev
  case onData d =>
    exact frame_to_step s _ (onData_spec cfg now s d).1 (onData_spec cfg now s d).2.1
      (onData_spec cfg now s d).2.2
  case onExit ec sg =>
    exact frame_to_step s _ (onExit_spec cfg now s ec sg).1
      (onExit_spec cfg now s ec sg).2.1 (onExit_spec cfg now s ec sg).2.2
  case input iev => exact handleInput_spec cfg now s iev
  case countdownTick => exact countdownTick_spec cfg s
  case timeoutFire => exact timeoutFire_spec cfg now s
  case intervalTick =>
    exact frame_to_step s _ (intervalTick_spec cfg now s).1
      (intervalTick_spec cfg now s).2.1 (intervalTick_spec cfg now s).2.2
  case initialFire =>
    exact frame_to_step s _ (initialFire_spec cfg now s).1
      (initialFire_spec cfg now s).2.1 (initialFire_spec cfg now s).2.2
  case quietFire =>
    exact frame_to_step s _ (quietFire_spec cfg now s).1
      (quietFire_spec cfg now s).2.1 (quietFire_spec cfg now s).2.2
  case setUpdateIntervalReq v =>
    exact frame_to_step s _ (setUI_frame v s).1 rfl
      (fun hi => ctrlInv_of_frame s (setUpdateInterval v s) (setUI_frame v s).1
        (setUI_frame v s).2.1 (setUI_frame v s).2.2.1 (setUI_frame v s).2.2.2.1
        (setUI_frame v s).2.2.2.2.1 (setUI_frame v s).2.2.2.2.2.1
        (setUI_frame v s).2.2.2.2.2.2.1 (setUI_frame v s).2.2.2.2.2.2.2 hi)
  case setQuietThresholdReq v =>
    exact frame_to_step s _ (setQT_frame v s).1 rfl
      (fun hi => ctrlInv_of_frame s (setQuietThreshold v s) (setQT_frame v s).1
        (setQT_frame v s).2.1 (setQT_frame v s).2.2.1 (setQT_frame v s).2.2.2.1
        (setQT_frame v s).2.2.2.2.1 (setQT_frame v s).2.2.2.2.2.1
        (setQT_frame v s).2.2.2.2.2.2.1 (setQT_frame v s).2.2.2.2.2.2.2 hi)
  case writeReq d => exact frame_to_step s _ rfl rfl (fun hi => hi)

/-- Auxiliary: the finish-once contract composed over an event list. -/
theorem runEvents_spec (cfg : CtrlConfig) (tes : List (Nat × Event)) : ∀ s : Ctrl,
    ctrlInv s →
    ((s.finished = true → (runEvents cfg s tes).1.finished = true) ∧
     countDone (runEvents cfg s tes).2 =
       (if s.finished = false ∧ (runEvents cfg s tes).1.finished = true
         then 1 else 0) ∧
     ctrlInv (runEvents cfg s tes).1) := by
  induction tes with
  | nil =>
      intro s hinv
      exact ⟨fun hf => hf,
        by cases hf : s.finished <;> simp [runEvents, hf, countDone], hinv⟩
  | cons te rest ih =>
      intro s hinv
      have hstep := stepEv_spec cfg s te
      rcases hS : stepEv cfg s te with ⟨s1, e1⟩
      rw [hS] at hstep
      have hm1 : s.finished = true → s1.finished = true := hstep.1
      have hc1 : countDone e1 =
          (if s.finished = false ∧ s1.finished = true then 1 else 0) := hstep.2.1
      have hinv1 : ctrlInv s1 := hstep.2.2 hinv
      have hrest := ih s1 hinv1
      rcases hR : runEvents cfg s1 rest with ⟨s2, e2⟩
      rw [hR] at hrest
      have hm2 : s1.finished = true → s2.finished = true := hrest.1
      have hc2 : countDone e2 =
          (if s1.finished = false ∧ s2.finished = true then 1 else 0) := hrest.2.1
      have hinv2 : ctrlInv s2 := hrest.2.2
      simp only [runEvents, hS, hR]
      refine ⟨fun hf => hm2 (hm1 hf), ?_, hinv2⟩
      rw [countDone_append, hc1, hc2]
      cases hf : s.finished
      · cases hf1 : s1.finished
        · cases hf2 : s2.finished <;> simp [hf, hf1, hf2]
        · have h2 := hm2 hf1
          simp [hf, hf1, h2]
      · have h1 := hm1 hf
        have h2 := hm2 h1
        simp [hf, h1, h2]

/-- Auxiliary: a freshly constructed controller is unfinished. -/
theorem initCtrl_unfinished (cfg : CtrlConfig) : (initCtrl cfg).1.finished = false := by
  unfold initCtrl
  dsimp only
  cases htm : cfg.timeoutMs
  · dsimp only
    split <;> rfl
  · dsimp only
    split
    · split <;> rfl
    · split <;> rfl

/-- Auxiliary: once finished under the invariant, every timer or exit
event is a complete no-op. -/
theorem stepEv_noop (cfg : CtrlConfig) (s : Ctrl) (te : Nat × Event)
    (hf : s.finished = true) (hinv : ctrlInv s)
    (hte : isTimerOrExitEvent te.2 = true) :
    stepEv cfg s te = (s, []) := by
  have h := inv_unarmed s hinv hf
  rcases te with ⟨now, ev⟩
  cases ev
  case onData d => simp [isTimerOrExitEvent] at hte
  case onExit ec sg =>
    show onExitHandler cfg now s ec sg = (s, [])
    unfold onExitHandler
    rw [if_pos h.2.2.2.2.2]
  case input iev => simp [isTimerOrExitEvent] at hte
  case countdownTick =>
    show countdownTickHandler cfg s = (s, [])
    unfold countdownTickHandler
    rw [if_neg (by simp [h.1])]
  case timeoutFire =>
    show timeoutFireHandler cfg now s = (s, [])
    unfold timeoutFireHandler
    rw [if_neg (by simp [h.2.1])]
  case intervalTick =>
    show intervalTickHandler cfg now s = (s, [])
    unfold intervalTickHandler
    rw [if_neg (by simp [h.2.2.1])]
  case initialFire =>
    show initialFireHandler cfg now s = (s, [])
    unfold initialFireHandler
    rw [if_neg (by simp [h.2.2.2.1])]
  case quietFire =>
    show quietFireHandler cfg now s = (s, [])
    unfold quietFireHandler
    rw [if_neg (by simp [h.2.2.2.2.1])]
  case setUpdateIntervalReq v => simp [isTimerOrExitEvent] at hte
  case setQuietThresholdReq v => simp [isTimerOrExitEvent] at hte
  case writeReq d => simp [isTimerOrExitEvent] at hte

/-- C5: across every event sequence delivered to a freshly constructed
controller, the done callback fires at most once; it fires exactly once
precisely when the controller has finished (via the exit countdown, the
dialog's kill or background choices, a keypress on the exited screen, or
the timeout); and once finished, all five timers are stopped and every
later timer or exit callback is a complete no-op, so `finished`
transitions false to true at most once. -/
theorem c5_finish_once (cfg : CtrlConfig) (tes : List (Nat × Event)) :
    countDone (runEvents cfg (initCtrl cfg).1 tes).2 ≤ 1 ∧
    (countDone (runEvents cfg (initCtrl cfg).1 tes).2 = 1 ↔
      (runEvents cfg (initCtrl cfg).1 tes).1.finished = true) ∧
    ((runEvents cfg (initCtrl cfg).1 tes).1.finished = true →
      allTimersOff (runEvents cfg (initCtrl cfg).1 tes).1 = true ∧
      ∀ te : Nat × Event, isTimerOrExitEvent te.2 = true →
        stepEv cfg (runEvents cfg (initCtrl cfg).1 tes).1 te =
          ((runEvents cfg (initCtrl cfg).1 tes).1, [])) := by
  have hinv0 : ctrlInv (initCtrl cfg).1 := by
    intro hf
    rw [initCtrl_unfinished] at hf
    simp at hf
  have h := runEvents_spec cfg tes (initCtrl cfg).1 hinv0
  rcases hR : runEvents cfg (initCtrl cfg).1 tes with ⟨sf, effs⟩
  rw [hR] at h
  dsimp only
  have hc0 : countDone effs =
      (if (initCtrl cfg).1.finished = false ∧ sf.finished = true then 1 else 0) :=
    h.2.1
  rw [initCtrl_unfinished] at hc0
  simp only [eq_self_iff_true, true_and] at hc0
  have hinv : ctrlInv sf := h.2.2
  refine ⟨?_, ?_, ?_⟩
  · rw [hc0]
    cases hsf : sf.finished <;> simp [hsf]
  · rw [hc0]
    cases hsf : sf.finished <;> simp [hsf]
  · intro hf
    refine ⟨(hinv hf).1, fun te hte => stepEv_noop cfg sf te hf hinv hte⟩

/-- C5 (witness): a hands-free session whose child exits, followed by an
enter keypress on the exited screen: the run calls done exactly once,
ends finished with every timer stopped, and a stray timeout fire on the
final state does nothing. -/
theorem c5_finish_once_witness :
    (runEvents cfgW (initCtrl cfgW).1 c5Events).1.finished = true ∧
    countDone (runEvents cfgW (initCtrl cfgW).1 c5Events).2 = 1 ∧
    allTimersOff (runEvents cfgW (initCtrl cfgW).1 c5Events).1 = true ∧
    stepEv cfgW (runEvents cfgW (initCtrl cfgW).1 c5Events).1 (9999, Event.timeoutFire) =
      ((runEvents cfgW (initCtrl cfgW).1 c5Events).1, []) := by
  have h := c5_finish_once cfgW c5Events
  have hfin : (runEvents cfgW (initCtrl cfgW).1 c5Events).1.finished = true := by decide
  exact ⟨hfin, (h.2.1).mpr hfin, (h.2.2 hfin).1,
    (h.2.2 hfin).2 (9999, Event.timeoutFire) (by decide)⟩

end PiShell
